import Mathlib

/-!
Formal model of the Twin recording-processing pipeline.

Shallow embedding of the TypeScript sources:
- apps/web/src/lib/upload.ts              (resumable upload transport)
- the backoff-polling hooks               (backoffDelayMs and friends)
- apps/api/src/services/recordings.service.ts
- apps/api/src/queues/debrief.queue.ts    (debrief worker, updateJobStatus, retryDebriefJob)
- the transcription queue module          (transcription worker, retryTranscriptionJob)
- the recordings HTTP routes              (complete-upload handler)

Databases are modelled as explicit row lists; Prisma `update` (which throws
when the row is missing) becomes an Except value; `updateMany` and `upsert`
are total.  Worker provider calls are parameters of type Except so either
outcome can be examined.  JavaScript numbers that only ever hold integers are
modelled as Nat/Int.
-/

-- ============================================
-- Upload transport (apps/web/src/lib/upload.ts)
-- ============================================

/-- Outcome of a single XHR attempt inside uploadOnce. -/
inductive UploadAttemptOutcome
  | success (status : Nat)
  | httpError (status : Nat)
  | networkError
  | timeoutError
  | abortedError
  | unknownError
  deriving DecidableEq, Repr

/-- The reason field of a failed upload result. -/
inductive UploadFailureReason
  | network
  | timeout
  | aborted
  | httpError
  | unknown
  deriving DecidableEq, Repr

/-- Model of the UploadResult record from upload.ts (message text elided). -/
structure UploadResultM where
  ok : Bool
  status : Option Nat
  reason : Option UploadFailureReason
  retriable : Bool
  attempts : Nat
  deriving DecidableEq, Repr

/-- Model of isRetriableStatus: 408, 429 or any 5xx status is retriable. -/
def isRetriableStatus (status : Nat) : Bool :=
  status == 408 || status == 429 || (decide (500 ≤ status) && decide (status ≤ 599))

/-- Model of getBackoffMs: 500 * 2 ^ max(0, attemptIndex - 1) plus jitter;
Nat subtraction realises the max with 0. -/
def getBackoffMs (attemptIndex jitter : Nat) : Nat :=
  500 * 2 ^ (attemptIndex - 1) + jitter

/-- Result of one uploadOnce call for a given attempt outcome. -/
def uploadOnceRes : UploadAttemptOutcome → UploadResultM
  | .success s => ⟨true, some s, none, false, 1⟩
  | .httpError s => ⟨false, some s, some .httpError, isRetriableStatus s, 1⟩
  | .networkError => ⟨false, none, some .network, true, 1⟩
  | .timeoutError => ⟨false, none, some .timeout, true, 1⟩
  | .abortedError => ⟨false, none, some .aborted, false, 1⟩
  | .unknownError => ⟨false, none, some .unknown, true, 1⟩

/-- The fallback result after the while loop in uploadToPresignedUrl. -/
def uploadDefaultFailure (maxRetries : Nat) : UploadResultM :=
  ⟨false, none, some .unknown, false, maxRetries + 1⟩

/-- Model of the retry loop of uploadToPresignedUrl.  `outcome a` is what the
a-th uploadOnce call (1-based) produces, `jit a` the jitter drawn before the
a-th retry sleep.  Returns the final result and the list of sleep delays.
Fuel bounds the loop; with fuel = maxRetries + 1 it is never exhausted. -/
def uploadLoop (outcome : Nat → UploadAttemptOutcome) (jit : Nat → Nat)
    (maxRetries : Nat) : Nat → Nat → Option UploadResultM → UploadResultM × List Nat
  | 0, _, lastFailure => (lastFailure.getD (uploadDefaultFailure maxRetries), [])
  | fuel + 1, attempt, lastFailure =>
    if attempt ≤ maxRetries then
      let a := attempt + 1
      let res := { uploadOnceRes (outcome a) with attempts := a }
      if res.ok then (res, [])
      else if res.retriable = false ∨ maxRetries < a then (res, [])
      else
        let rest := uploadLoop outcome jit maxRetries fuel a (some res)
        (rest.1, getBackoffMs a (jit a) :: rest.2)
    else (lastFailure.getD (uploadDefaultFailure maxRetries), [])

/-- Model of uploadToPresignedUrl: run the loop from attempt 0. -/
def uploadToPresignedUrl (outcome : Nat → UploadAttemptOutcome) (jit : Nat → Nat)
    (maxRetries : Nat) : UploadResultM × List Nat :=
  uploadLoop outcome jit maxRetries (maxRetries + 1) 0 none

lemma uploadLoop_all503 (outcome : Nat → UploadAttemptOutcome)
    (h503 : ∀ a, outcome a = .httpError 503) (jit : Nat → Nat) (maxRetries : Nat) :
    ∀ fuel attempt lastF, attempt ≤ maxRetries → maxRetries < attempt + fuel →
      uploadLoop outcome jit maxRetries fuel attempt lastF =
        (⟨false, some 503, some .httpError, true, maxRetries + 1⟩,
         (List.range (maxRetries - attempt)).map
           (fun i => getBackoffMs (attempt + 1 + i) (jit (attempt + 1 + i)))) := by
  intro fuel
  induction fuel with
  | zero =>
    intro attempt lastF hle hlt
    omega
  | succ fuel ih =>
    intro attempt lastF hle hlt
    rw [uploadLoop, if_pos hle]
    have hret : isRetriableStatus 503 = true := by decide
    simp only [h503, uploadOnceRes, hret]
    by_cases hEq : attempt = maxRetries
    · subst hEq
      norm_num
    · have hlt2 : attempt < maxRetries := lt_of_le_of_ne hle hEq
      norm_num
      rw [if_neg (by omega : ¬ maxRetries < attempt + 1)]
      have hRec := ih (attempt + 1)
        (some ⟨false, some 503, some UploadFailureReason.httpError, true, attempt + 1⟩)
        (by omega) (by omega)
      rw [hRec]
      have hrange : maxRetries - attempt = (maxRetries - (attempt + 1)) + 1 := by omega
      rw [hrange, List.range_succ_eq_map, List.map_cons, List.map_map]
      refine Prod.ext rfl ?_
      simp only [Nat.add_zero]
      refine List.cons_eq_cons.mpr ⟨rfl, ?_⟩
      apply List.map_congr_left
      intro i _
      simp only [Function.comp_apply]
      have hidx : attempt + 1 + 1 + i = attempt + 1 + i.succ := by omega
      rw [hidx]

/-- C7: when every attempt fails with HTTP 503 the transfer is attempted
maxRetries + 1 times, each sleeping delay between attempts follows the
jittered doubling schedule (strictly increasing once jitter is removed), and
the final result is non-ok with attempts = maxRetries + 1; when the first
attempt fails with HTTP 403 (non-retriable) the non-ok result is returned
after that single attempt with no retry delay. -/
theorem c7_upload_retry_policy :
    (∀ (outcome : Nat → UploadAttemptOutcome) (jit : Nat → Nat) (maxRetries : Nat),
      (∀ a, outcome a = .httpError 503) →
      uploadToPresignedUrl outcome jit maxRetries =
        (⟨false, some 503, some .httpError, true, maxRetries + 1⟩,
         (List.range maxRetries).map (fun i => getBackoffMs (i + 1) (jit (i + 1)))) ∧
      (∀ i j, i < j → getBackoffMs (i + 1) 0 < getBackoffMs (j + 1) 0)) ∧
    (∀ (outcome : Nat → UploadAttemptOutcome) (jit : Nat → Nat) (maxRetries : Nat),
      outcome 1 = .httpError 403 →
      uploadToPresignedUrl outcome jit maxRetries =
        (⟨false, some 403, some .httpError, false, 1⟩, [])) := by
  constructor
  · intro outcome jit maxRetries h503
    constructor
    · have h := uploadLoop_all503 outcome h503 jit maxRetries (maxRetries + 1) 0 none
        (Nat.zero_le _) (by omega)
      rw [uploadToPresignedUrl, h]
      refine Prod.ext rfl ?_
      simp only [Nat.sub_zero]
      apply List.map_congr_left
      intro i _
      have hidx : 0 + 1 + i = i + 1 := by omega
      rw [hidx]
    · intro i j hij
      simp only [getBackoffMs, Nat.add_sub_cancel, Nat.add_zero]
      have : (2 : ℕ) ^ i < 2 ^ j := Nat.pow_lt_pow_right (by norm_num) hij
      omega
  · intro outcome jit maxRetries h403
    rw [uploadToPresignedUrl, uploadLoop, if_pos (Nat.zero_le _)]
    have hret : isRetriableStatus 403 = false := by decide
    simp only [Nat.zero_add, h403, uploadOnceRes, hret]
    norm_num

/-- Witness for C7 at maxRetries = 2 with zero jitter. -/
theorem c7_upload_retry_policy_witness :
    uploadToPresignedUrl (fun _ => .httpError 503) (fun _ => 0) 2 =
      (⟨false, some 503, some .httpError, true, 3⟩, [500, 1000]) ∧
    uploadToPresignedUrl (fun _ => .httpError 403) (fun _ => 0) 2 =
      (⟨false, some 403, some .httpError, false, 1⟩, []) := by
  constructor
  · have h := (c7_upload_retry_policy.1 (fun _ => .httpError 503) (fun _ => 0) 2
      (fun _ => rfl)).1
    exact h.trans (by decide)
  · exact c7_upload_retry_policy.2 (fun _ => .httpError 403) (fun _ => 0) 2 rfl

-- ============================================
-- Backoff polling (web hooks: backoffDelayMs, useRecordingWithBackoffPolling)
-- ============================================

/-- Recording status enumeration shared by client and server. -/
inductive RecStatus
  | pending
  | uploaded
  | processing
  | complete
  | failed
  deriving DecidableEq, Repr

/-- String form of a status, as it appears in the polling fingerprint. -/
def statusToStr : RecStatus → String
  | .pending => "pending"
  | .uploaded => "uploaded"
  | .processing => "processing"
  | .complete => "complete"
  | .failed => "failed"

/-- What the polling hook observes about a recording: its status and whether
transcript and debrief relations are present. -/
structure RecView where
  status : RecStatus
  hasTranscript : Bool
  hasDebrief : Bool
  deriving DecidableEq, Repr

/-- The t/f marker used in the fingerprint string. -/
def presenceChar (b : Bool) : String := if b then "t" else "f"

/-- Model of the fingerprint key built in the hook effect:
status, transcript presence and debrief presence joined by dashes; absent
data contributes an empty status. -/
def fingerprint : Option RecView → String
  | none => "-f-f"
  | some v => statusToStr v.status ++ "-" ++ presenceChar v.hasTranscript
      ++ "-" ++ presenceChar v.hasDebrief

/-- Model of isTerminalRecordingState: failed, or complete with a debrief. -/
def isTerminalRecordingState : Option RecView → Bool
  | none => false
  | some v => decide (v.status = .failed)
      || (decide (v.status = .complete) && v.hasDebrief)

/-- Model of backoffDelayMs: min(1500 * 2 ^ attempt, 20000) plus jitter.
Math.max(0, attempt) is the identity on Nat. -/
def backoffDelayMs (attempt jitter : Nat) : Nat :=
  min (1500 * 2 ^ attempt) 20000 + jitter

/-- The mutable refs the hook keeps per watched recording. -/
structure PollState where
  attempt : Nat
  lastKey : String
  deriving DecidableEq, Repr

/-- Fingerprint comparison at the top of the hook effect: a nonempty key that
differs from the stored one resets the attempt counter. -/
def pollObserve (s : PollState) (data : Option RecView) : PollState :=
  let key := fingerprint data
  if key ≠ "" ∧ key ≠ s.lastKey then ⟨0, key⟩ else s

/-- Delay the hook schedules for the current observation, none if terminal. -/
def pollScheduledDelay (s : PollState) (data : Option RecView) (jitter : Nat) :
    Option Nat :=
  let s1 := pollObserve s data
  if isTerminalRecordingState data then none
  else some (backoffDelayMs s1.attempt jitter)

/-- When the scheduled timeout fires, the attempt counter is incremented. -/
def pollFire (s : PollState) : PollState := ⟨s.attempt + 1, s.lastKey⟩

/-- Delays scheduled over n successive polls that all observe the same data,
taking jitter 0 each time. -/
def pollDelays (s : PollState) (data : Option RecView) : Nat → List Nat
  | 0 => []
  | n + 1 =>
    if isTerminalRecordingState data then []
    else
      let s1 := pollObserve s data
      backoffDelayMs s1.attempt 0 :: pollDelays (pollFire s1) data n

lemma fingerprint_ne_empty (data : Option RecView) : fingerprint data ≠ "" := by
  match data with
  | none => decide
  | some v =>
    obtain ⟨st, ht, hd⟩ := v
    cases st <;> cases ht <;> cases hd <;> decide

lemma pollDelays_same_key (data : Option RecView)
    (hnt : isTerminalRecordingState data = false) :
    ∀ n a, pollDelays ⟨a, fingerprint data⟩ data n =
      (List.range n).map (fun i => backoffDelayMs (a + i) 0) := by
  intro n
  induction n with
  | zero => intro a; rfl
  | succ n ih =>
    intro a
    rw [pollDelays, if_neg (by simp [hnt])]
    have hobs : pollObserve ⟨a, fingerprint data⟩ data = ⟨a, fingerprint data⟩ := by
      rw [pollObserve]
      simp
    rw [hobs]
    simp only [pollFire]
    rw [ih (a + 1), List.range_succ_eq_map, List.map_cons, List.map_map]
    refine List.cons_eq_cons.mpr ⟨by norm_num, ?_⟩
    apply List.map_congr_left
    intro i _
    simp only [Function.comp_apply]
    have hidx : a + 1 + i = a + i.succ := by omega
    rw [hidx]

/-- C9: the delay scheduled for attempt n is min(1500 * 2 ^ n, 20000) plus the
drawn jitter; with jitter stripped, delays are non-decreasing in the attempt
count and never exceed the 20000 cap; a changed fingerprint resets the
attempt count, making the next scheduled delay the base 1500 plus jitter; and
over a run of polls observing an unchanged non-terminal fingerprint the
scheduled delays are exactly attempts 0, 1, 2, ... of that schedule. -/
theorem c9_backoff_scheduler :
    (∀ a j, backoffDelayMs a j = min (1500 * 2 ^ a) 20000 + j) ∧
    (∀ m n, m ≤ n →
      backoffDelayMs m 0 ≤ backoffDelayMs n 0 ∧ backoffDelayMs n 0 ≤ 20000) ∧
    (∀ (s : PollState) (data : Option RecView) (j : Nat),
      fingerprint data ≠ s.lastKey → isTerminalRecordingState data = false →
      pollScheduledDelay s data j = some (1500 + j)) ∧
    (∀ (data : Option RecView) (n : Nat), isTerminalRecordingState data = false →
      pollDelays ⟨0, fingerprint data⟩ data n =
        (List.range n).map (fun i => backoffDelayMs i 0)) := by
  refine ⟨fun a j => rfl, ?_, ?_, ?_⟩
  · intro m n hmn
    constructor
    · have hpow : (2 : ℕ) ^ m ≤ 2 ^ n := Nat.pow_le_pow_right (by norm_num) hmn
      have : 1500 * 2 ^ m ≤ 1500 * 2 ^ n := Nat.mul_le_mul_left _ hpow
      simp only [backoffDelayMs, Nat.add_zero]
      exact min_le_min this le_rfl
    · simp only [backoffDelayMs, Nat.add_zero]
      exact min_le_right _ _
  · intro s data j hkey hnt
    rw [pollScheduledDelay]
    simp only [hnt]
    have hobs : pollObserve s data = ⟨0, fingerprint data⟩ := by
      rw [pollObserve]
      rw [if_pos ⟨fingerprint_ne_empty data, hkey⟩]
    rw [hobs]
    norm_num [backoffDelayMs]
  · intro data n hnt
    have h := pollDelays_same_key data hnt n 0
    rw [h]
    apply List.map_congr_left
    intro i _
    rw [Nat.zero_add]

/-- Witness for C9 at concrete states and observations. -/
theorem c9_backoff_scheduler_witness :
    backoffDelayMs 3 7 = min (1500 * 2 ^ 3) 20000 + 7 ∧
    (backoffDelayMs 2 0 ≤ backoffDelayMs 5 0 ∧ backoffDelayMs 5 0 ≤ 20000) ∧
    pollScheduledDelay ⟨4, "uploaded-f-f"⟩ (some ⟨.processing, true, false⟩) 9 =
      some (1500 + 9) ∧
    pollDelays ⟨0, fingerprint (some ⟨.processing, true, false⟩)⟩
        (some ⟨.processing, true, false⟩) 6 =
      (List.range 6).map (fun i => backoffDelayMs i 0) := by
  refine ⟨c9_backoff_scheduler.1 3 7, c9_backoff_scheduler.2.1 2 5 (by norm_num),
    c9_backoff_scheduler.2.2.1 ⟨4, "uploaded-f-f"⟩ (some ⟨.processing, true, false⟩) 9
      (by decide) (by decide),
    c9_backoff_scheduler.2.2.2 (some ⟨.processing, true, false⟩) 6 (by decide)⟩

-- ============================================
-- Data model (Prisma rows) and database primitives
-- ============================================

/-- Job type enumeration. -/
inductive JobType
  | TRANSCRIBE
  | DEBRIEF
  deriving DecidableEq, Repr

/-- Job status enumeration. -/
inductive JobStatus
  | pending
  | running
  | complete
  | failed
  deriving DecidableEq, Repr

/-- A Recording row. -/
structure RecordingRow where
  id : String
  userId : String
  title : String
  mode : String
  status : RecStatus
  objectKey : Option String
  mimeType : Option String
  fileSize : Option Nat
  duration : Option Int
  deriving DecidableEq, Repr

/-- A Job row. -/
structure JobRow where
  id : String
  recordingId : String
  jtype : JobType
  status : JobStatus
  error : Option String
  startedAt : Option Nat
  completedAt : Option Nat
  deriving DecidableEq, Repr

/-- One timed transcript segment; the source field end is renamed stop
because end is reserved, and times are abstracted to integers. -/
structure SegmentRow where
  start : Int
  stop : Int
  text : String
  speaker : Option String
  deriving DecidableEq, Repr

/-- A Transcript row (at most one per recording by unique key). -/
structure TranscriptRow where
  id : String
  recordingId : String
  text : String
  segments : Option (List SegmentRow)
  language : String
  deriving DecidableEq, Repr

/-- One titled debrief section. -/
structure DebriefSectionRow where
  title : String
  content : String
  order : Nat
  deriving DecidableEq, Repr

/-- A Debrief row (at most one per recording by unique key). -/
structure DebriefRow where
  id : String
  recordingId : String
  markdown : String
  sections : List DebriefSectionRow
  deriving DecidableEq, Repr

/-- The persisted database state. -/
structure Db where
  recordings : List RecordingRow
  jobs : List JobRow
  transcripts : List TranscriptRow
  debriefs : List DebriefRow
  deriving DecidableEq, Repr

/-- Prisma recording.findUnique on id. -/
def recordingFind (db : Db) (id : String) : Option RecordingRow :=
  db.recordings.find? (fun r => decide (r.id = id))

/-- Prisma recording.findFirst on id and userId (getRecordingByUser). -/
def recordingFindByUser (db : Db) (id userId : String) : Option RecordingRow :=
  db.recordings.find? (fun r => decide (r.id = id) && decide (r.userId = userId))

/-- Prisma recording.update, which throws P2025 when the row is missing. -/
def recordingUpdate (db : Db) (id : String) (f : RecordingRow → RecordingRow) :
    Except String Db :=
  if db.recordings.any (fun r => decide (r.id = id)) then
    .ok { db with recordings :=
      db.recordings.map (fun r => if r.id = id then f r else r) }
  else .error "Record to update not found."

/-- Prisma recording.updateMany: total, updates every matching row. -/
def recordingUpdateMany (db : Db) (p : RecordingRow → Bool)
    (f : RecordingRow → RecordingRow) : Db :=
  { db with recordings := db.recordings.map (fun r => if p r then f r else r) }

/-- Prisma job.update, which throws when the row is missing. -/
def jobUpdate (db : Db) (id : String) (f : JobRow → JobRow) : Except String Db :=
  if db.jobs.any (fun j => decide (j.id = id)) then
    .ok { db with jobs := db.jobs.map (fun j => if j.id = id then f j else j) }
  else .error "Record to update not found."

/-- Prisma job.create with a fresh id supplied by the caller. -/
def jobCreate (db : Db) (newId recId : String) (t : JobType) : Db × JobRow :=
  let row : JobRow := ⟨newId, recId, t, .pending, none, none, none⟩
  ({ db with jobs := db.jobs ++ [row] }, row)

/-- Prisma transcript.upsert keyed by recordingId: overwrite the existing
row wholesale or create a fresh one; returns the row id as well. -/
def transcriptUpsert (db : Db) (recId newId text : String)
    (segments : Option (List SegmentRow)) (language : String) : Db × String :=
  match db.transcripts.find? (fun t => decide (t.recordingId = recId)) with
  | some t0 =>
    ({ db with transcripts := db.transcripts.map (fun t =>
        if t.recordingId = recId then
          { t with text := text, segments := segments, language := language }
        else t) }, t0.id)
  | none =>
    ({ db with transcripts := db.transcripts ++ [⟨newId, recId, text, segments, language⟩] },
     newId)

/-- Prisma debrief.upsert keyed by recordingId. -/
def debriefUpsert (db : Db) (recId newId markdown : String)
    (sections : List DebriefSectionRow) : Db × String :=
  match db.debriefs.find? (fun d => decide (d.recordingId = recId)) with
  | some d0 =>
    ({ db with debriefs := db.debriefs.map (fun d =>
        if d.recordingId = recId then
          { d with markdown := markdown, sections := sections }
        else d) }, d0.id)
  | none =>
    ({ db with debriefs := db.debriefs ++ [⟨newId, recId, markdown, sections⟩] }, newId)

/-- Lookup of the transcript attached to a recording. -/
def transcriptFind (db : Db) (recId : String) : Option TranscriptRow :=
  db.transcripts.find? (fun t => decide (t.recordingId = recId))

/-- Lookup of the debrief attached to a recording. -/
def debriefFind (db : Db) (recId : String) : Option DebriefRow :=
  db.debriefs.find? (fun d => decide (d.recordingId = recId))

/-- Lookup of a job row by id. -/
def jobFind (db : Db) (id : String) : Option JobRow :=
  db.jobs.find? (fun j => decide (j.id = id))

/-- Whether a job row with the id exists. -/
def jobExists (db : Db) (id : String) : Bool :=
  db.jobs.any (fun j => decide (j.id = id))

/-- Whether a recording row with the id exists. -/
def recExists (db : Db) (id : String) : Bool :=
  db.recordings.any (fun r => decide (r.id = id))

/-- Status of a recording by id, if present. -/
def recStatusOf (db : Db) (id : String) : Option RecStatus :=
  (recordingFind db id).map (fun r => r.status)

/-- Status of a job by id, if present. -/
def jobStatusOf (db : Db) (id : String) : Option JobStatus :=
  (jobFind db id).map (fun j => j.status)

/-- Error text of a job by id, if present. -/
def jobErrorOf (db : Db) (id : String) : Option (Option String) :=
  (jobFind db id).map (fun j => j.error)

/-- Number of transcript rows attached to one recording. -/
def countTranscripts (db : Db) (recId : String) : Nat :=
  (db.transcripts.filter (fun t => decide (t.recordingId = recId))).length

-- ============================================
-- updateJobStatus (identical helper in both queue modules)
-- ============================================

/-- Model of updateJobStatus: write the requested status unconditionally,
stamping startedAt when it is running, completedAt when it is complete or
failed, and the error text when a non-empty one is supplied (the JS truthy
check makes an empty string fall through). -/
def updateJobStatus (db : Db) (jobId : String) (status : JobStatus)
    (error : Option String) (now : Nat) : Except String Db :=
  jobUpdate db jobId (fun j =>
    { j with
      status := status
      startedAt := if status = .running then some now else j.startedAt
      completedAt := if status = .complete ∨ status = .failed then some now
        else j.completedAt
      error := match error with
        | some e => if e = "" then j.error else some e
        | none => j.error })

-- ============================================
-- recordings.service.ts saveTranscript
-- ============================================

/-- Model of saveTranscript: inside one transaction, upsert the transcript
for the recording, then flip the recording from processing to complete via
updateMany. -/
def saveTranscript (db : Db) (recId text : String)
    (segments : Option (List SegmentRow)) (language newId : String) : Db :=
  let db1 := (transcriptUpsert db recId newId text segments language).1
  recordingUpdateMany db1
    (fun r => decide (r.id = recId) && decide (r.status = RecStatus.processing))
    (fun r => { r with status := RecStatus.complete })

-- ============================================
-- Lemmas about the database primitives
-- ============================================

lemma updateJobStatus_applies (db : Db) (jobId : String) (s : JobStatus)
    (err : Option String) (now : Nat) (hex : jobExists db jobId = true) :
    (updateJobStatus db jobId s err now).map (fun d => jobStatusOf d jobId) =
      Except.ok (some s) := by
  simp only [jobExists] at hex
  rw [updateJobStatus, jobUpdate, if_pos hex]
  simp only [Except.map]
  rw [jobStatusOf, jobFind]
  simp only
  rw [List.find?_map]
  have hcomp : ((fun j : JobRow => decide (j.id = jobId)) ∘ (fun j : JobRow =>
      if j.id = jobId then
        { j with
          status := s
          startedAt := if s = .running then some now else j.startedAt
          completedAt := if s = .complete ∨ s = .failed then some now else j.completedAt
          error := match err with
            | some e => if e = "" then j.error else some e
            | none => j.error }
      else j)) = fun j : JobRow => decide (j.id = jobId) := by
    funext j
    by_cases h : j.id = jobId <;> simp [h]
  rw [hcomp]
  obtain ⟨j0, hj0mem, hj0p⟩ := List.any_eq_true.mp hex
  have hsome : (db.jobs.find? (fun j => decide (j.id = jobId))).isSome := by
    rw [List.find?_isSome]
    exact ⟨j0, hj0mem, hj0p⟩
  obtain ⟨j1, hj1⟩ := Option.isSome_iff_exists.mp hsome
  have hpj1 : j1.id = jobId := by
    have hp := List.find?_some hj1
    simpa using hp
  rw [hj1]
  simp [hpj1]

lemma transcriptUpsert_find (db : Db) (recId newId text : String)
    (segs : Option (List SegmentRow)) (lang : String) :
    (transcriptFind (transcriptUpsert db recId newId text segs lang).1 recId).map
      (fun t => (t.text, t.segments, t.language)) = some (text, segs, lang) := by
  rw [transcriptUpsert]
  cases hf : db.transcripts.find? (fun t => decide (t.recordingId = recId)) with
  | some t0 =>
    simp only
    rw [transcriptFind]
    simp only
    rw [List.find?_map]
    have hcomp : ((fun t : TranscriptRow => decide (t.recordingId = recId)) ∘
        (fun t : TranscriptRow => if t.recordingId = recId then
          { t with text := text, segments := segs, language := lang } else t)) =
        fun t : TranscriptRow => decide (t.recordingId = recId) := by
      funext t
      by_cases h : t.recordingId = recId <;> simp [h]
    rw [hcomp, hf]
    have hp : t0.recordingId = recId := by
      have := List.find?_some hf
      simpa using this
    simp [hp]
  | none =>
    simp only
    rw [transcriptFind]
    simp only
    rw [List.find?_append, hf]
    simp

lemma transcriptUpsert_count (db : Db) (recId newId text : String)
    (segs : Option (List SegmentRow)) (lang : String)
    (h : countTranscripts db recId ≤ 1) :
    countTranscripts (transcriptUpsert db recId newId text segs lang).1 recId = 1 := by
  rw [transcriptUpsert]
  cases hf : db.transcripts.find? (fun t => decide (t.recordingId = recId)) with
  | some t0 =>
    simp only
    rw [countTranscripts]
    simp only
    rw [List.filter_map]
    have hcomp : ((fun t : TranscriptRow => decide (t.recordingId = recId)) ∘
        (fun t : TranscriptRow => if t.recordingId = recId then
          { t with text := text, segments := segs, language := lang } else t)) =
        fun t : TranscriptRow => decide (t.recordingId = recId) := by
      funext t
      by_cases hq : t.recordingId = recId <;> simp [hq]
    rw [hcomp, List.length_map]
    have hp : t0.recordingId = recId := by
      have := List.find?_some hf
      simpa using this
    have hmem : t0 ∈ db.transcripts := List.mem_of_find?_eq_some hf
    have hmemf : t0 ∈ db.transcripts.filter (fun t => decide (t.recordingId = recId)) :=
      List.mem_filter.mpr ⟨hmem, by simp [hp]⟩
    have hpos : 0 < (db.transcripts.filter
        (fun t => decide (t.recordingId = recId))).length :=
      List.length_pos.mpr (List.ne_nil_of_mem hmemf)
    rw [countTranscripts] at h
    omega
  | none =>
    simp only
    rw [countTranscripts]
    simp only
    rw [List.filter_append]
    have hnil : db.transcripts.filter (fun t => decide (t.recordingId = recId)) = [] := by
      rw [List.filter_eq_nil_iff]
      intro t hmem
      have := List.find?_eq_none.mp hf t hmem
      simpa using this
    rw [hnil]
    simp

-- ============================================
-- C5: Job Ledger transition guard
-- ============================================

/-- C5 counterexample: updateJobStatus applies the illegal transition
complete → running instead of failing with an InvalidTransition condition:
on a job already complete, requesting running succeeds and the row ends up
running. -/
theorem c5_counterexample_complete_to_running :
    (updateJobStatus ⟨[], [⟨"j1", "r1", JobType.DEBRIEF, JobStatus.complete,
        none, none, some 10⟩], [], []⟩ "j1" JobStatus.running none 42).map
      (fun d => jobStatusOf d "j1") = Except.ok (some JobStatus.running) := by
  rfl

/-- C5 amended: updateJobStatus performs no transition validation at all:
whenever the job row exists, any requested status (legal or not) is written
unconditionally and the call succeeds; no InvalidTransition condition exists
in the code. -/
theorem c5_amended_no_transition_guard :
    ∀ (db : Db) (jobId : String) (s : JobStatus) (err : Option String) (now : Nat),
      jobExists db jobId = true →
      (updateJobStatus db jobId s err now).map (fun d => jobStatusOf d jobId) =
        Except.ok (some s) :=
  fun db jobId s err now hex => updateJobStatus_applies db jobId s err now hex

/-- Witness for C5 amended: a pending job moved straight to complete. -/
theorem c5_amended_no_transition_guard_witness :
    (updateJobStatus ⟨[], [⟨"j2", "r1", JobType.TRANSCRIBE, JobStatus.pending,
        none, none, none⟩], [], []⟩ "j2" JobStatus.complete none 7).map
      (fun d => jobStatusOf d "j2") = Except.ok (some JobStatus.complete) :=
  c5_amended_no_transition_guard _ "j2" JobStatus.complete none 7 (by decide)

-- ============================================
-- C6: transcript upsert idempotence
-- ============================================

/-- C6: running the transcription persistence step (the transcript upsert
keyed by recording reference) twice with differing outputs leaves exactly
one Transcript row for the recording, holding the second output's text,
segments and language; the hypothesis is the schema's unique key on
recordingId (at most one pre-existing row). -/
theorem c6_transcript_upsert_idempotent :
    ∀ (db : Db) (recId id1 id2 t1 t2 : String) (s1 s2 : Option (List SegmentRow))
      (l1 l2 : String),
      countTranscripts db recId ≤ 1 →
      countTranscripts ((transcriptUpsert ((transcriptUpsert db recId id1 t1 s1 l1).1)
          recId id2 t2 s2 l2).1) recId = 1 ∧
      (transcriptFind ((transcriptUpsert ((transcriptUpsert db recId id1 t1 s1 l1).1)
          recId id2 t2 s2 l2).1) recId).map (fun t => (t.text, t.segments, t.language)) =
        some (t2, s2, l2) := by
  intro db recId id1 id2 t1 t2 s1 s2 l1 l2 h
  have h1 : countTranscripts (transcriptUpsert db recId id1 t1 s1 l1).1 recId = 1 :=
    transcriptUpsert_count db recId id1 t1 s1 l1 h
  exact ⟨transcriptUpsert_count _ recId id2 t2 s2 l2 (le_of_eq h1),
    transcriptUpsert_find _ recId id2 t2 s2 l2⟩

/-- Witness for C6: two upserts on an empty database. -/
theorem c6_transcript_upsert_idempotent_witness :
    countTranscripts ((transcriptUpsert ((transcriptUpsert ⟨[], [], [], []⟩
        "r1" "t1" "hello" none "en").1) "r1" "t2" "bye" none "de").1) "r1" = 1 ∧
    (transcriptFind ((transcriptUpsert ((transcriptUpsert ⟨[], [], [], []⟩
        "r1" "t1" "hello" none "en").1) "r1" "t2" "bye" none "de").1) "r1").map
      (fun t => (t.text, t.segments, t.language)) = some ("bye", none, "de") :=
  c6_transcript_upsert_idempotent ⟨[], [], [], []⟩ "r1" "t1" "t2" "hello" "bye"
    none none "en" "de" (by decide)

-- ============================================
-- Queue payloads and worker result values
-- ============================================

/-- Payload of a transcription queue job. -/
structure TranscriptionJobData where
  recordingId : String
  jobId : String
  objectKey : String
  mimeType : String
  userId : String
  deriving DecidableEq, Repr

/-- What the transcription provider returns; duration is already rounded to
an integer (Math.round on the JS float is abstracted). -/
structure TranscriptionResultT where
  text : String
  segments : Option (List SegmentRow)
  language : String
  duration : Option Int
  deriving DecidableEq, Repr

/-- Payload of a debrief queue job. -/
structure DebriefJobData where
  recordingId : String
  jobId : String
  transcriptId : String
  transcriptText : String
  recordingMode : String
  recordingTitle : String
  userId : String
  deriving DecidableEq, Repr

/-- What the debrief generator returns. -/
structure DebriefResultT where
  markdown : String
  sections : List DebriefSectionRow
  deriving DecidableEq, Repr

/-- Return value of a successful transcription worker run. -/
structure TWorkerRes where
  transcriptId : String
  text : String
  segmentCount : Nat
  language : String
  deriving DecidableEq, Repr

/-- Return value of a successful debrief worker run. -/
structure DWorkerRes where
  debriefId : String
  markdown : String
  sectionCount : Nat
  deriving DecidableEq, Repr

/-- State a transcription worker touches: the database plus the debrief
queue it can chain into. -/
structure TState where
  db : Db
  debriefQ : List DebriefJobData
  deriving DecidableEq, Repr

/-- Pairs of recording id and status, used to express that an operation
leaves every recording status untouched. -/
def recStatuses (db : Db) : List (String × RecStatus) :=
  db.recordings.map (fun r => (r.id, r.status))

-- ============================================
-- Shape and preservation lemmas for the primitives
-- ============================================

lemma jobUpdate_ok_shape {db : Db} {i : String} {f : JobRow → JobRow} {db2 : Db}
    (h : jobUpdate db i f = .ok db2) :
    db2 = { db with jobs := db.jobs.map (fun j => if j.id = i then f j else j) } := by
  rw [jobUpdate] at h
  split at h
  · exact (Except.ok.inj h).symm
  · exact absurd h (by simp)

lemma recordingUpdate_ok_shape {db : Db} {i : String} {f : RecordingRow → RecordingRow}
    {db2 : Db} (h : recordingUpdate db i f = .ok db2) :
    db2 = { db with recordings :=
      db.recordings.map (fun r => if r.id = i then f r else r) } := by
  rw [recordingUpdate] at h
  split at h
  · exact (Except.ok.inj h).symm
  · exact absurd h (by simp)

lemma recStatuses_congr {db db2 : Db} (h : db2.recordings = db.recordings) :
    recStatuses db2 = recStatuses db := by
  rw [recStatuses, recStatuses, h]

lemma recExists_congr {db db2 : Db} (h : db2.recordings = db.recordings) (x : String) :
    recExists db2 x = recExists db x := by
  rw [recExists, recExists, h]

lemma jobExists_congr {db db2 : Db} (h : db2.jobs = db.jobs) (x : String) :
    jobExists db2 x = jobExists db x := by
  rw [jobExists, jobExists, h]

lemma jobStatusOf_congr {db db2 : Db} (h : db2.jobs = db.jobs) (x : String) :
    jobStatusOf db2 x = jobStatusOf db x := by
  rw [jobStatusOf, jobStatusOf, jobFind, jobFind, h]

lemma recStatusOf_congr {db db2 : Db} (h : db2.recordings = db.recordings) (x : String) :
    recStatusOf db2 x = recStatusOf db x := by
  rw [recStatusOf, recStatusOf, recordingFind, recordingFind, h]

lemma updateJobStatus_ok_pres {db db2 : Db} {i : String} {s : JobStatus}
    {err : Option String} {now : Nat} (h : updateJobStatus db i s err now = .ok db2) :
    db2.recordings = db.recordings ∧ db2.transcripts = db.transcripts ∧
    db2.debriefs = db.debriefs ∧
    (∀ x, jobExists db2 x = jobExists db x) ∧
    db2.jobs.map (fun j => (j.id, j.jtype)) = db.jobs.map (fun j => (j.id, j.jtype)) := by
  rw [updateJobStatus] at h
  have hsh := jobUpdate_ok_shape h
  subst hsh
  refine ⟨rfl, rfl, rfl, ?_, ?_⟩
  · intro x
    rw [jobExists, jobExists]
    simp only [List.any_map]
    congr 1
    funext j
    by_cases hc : j.id = i <;> simp [hc]
  · simp only [List.map_map]
    apply List.map_congr_left
    intro j _
    by_cases hc : j.id = i <;> simp [hc]

lemma recordingUpdate_ok_pres {db db2 : Db} {i : String}
    {f : RecordingRow → RecordingRow}
    (h : recordingUpdate db i f = .ok db2) (hf : ∀ r, (f r).id = r.id) :
    db2.jobs = db.jobs ∧ db2.transcripts = db.transcripts ∧
    db2.debriefs = db.debriefs ∧ (∀ x, recExists db2 x = recExists db x) := by
  have hsh := recordingUpdate_ok_shape h
  subst hsh
  refine ⟨rfl, rfl, rfl, ?_⟩
  intro x
  rw [recExists, recExists]
  simp only [List.any_map]
  congr 1
  funext r
  by_cases hc : r.id = i <;> simp [hc, hf]

lemma recordingUpdate_ok_recStatuses {db db2 : Db} {i : String}
    {f : RecordingRow → RecordingRow}
    (h : recordingUpdate db i f = .ok db2)
    (hf : ∀ r, (f r).id = r.id ∧ (f r).status = r.status) :
    recStatuses db2 = recStatuses db := by
  have hsh := recordingUpdate_ok_shape h
  subst hsh
  rw [recStatuses, recStatuses]
  simp only [List.map_map]
  apply List.map_congr_left
  intro r _
  by_cases hc : r.id = i <;> simp [hc, (hf r).1, (hf r).2]

lemma updateJobStatus_ok_of_exists {db : Db} {i : String} (s : JobStatus)
    (err : Option String) (now : Nat) (h : jobExists db i = true) :
    ∃ db2, updateJobStatus db i s err now = .ok db2 := by
  simp only [jobExists] at h
  rw [updateJobStatus, jobUpdate, if_pos h]
  exact ⟨_, rfl⟩

lemma recordingUpdate_ok_of_exists {db : Db} {i : String}
    (f : RecordingRow → RecordingRow) (h : recExists db i = true) :
    ∃ db2, recordingUpdate db i f = .ok db2 := by
  simp only [recExists] at h
  rw [recordingUpdate, if_pos h]
  exact ⟨_, rfl⟩

lemma transcriptUpsert_pres (db : Db) (recId newId text : String)
    (segs : Option (List SegmentRow)) (lang : String) :
    (transcriptUpsert db recId newId text segs lang).1.jobs = db.jobs ∧
    (transcriptUpsert db recId newId text segs lang).1.recordings = db.recordings ∧
    (transcriptUpsert db recId newId text segs lang).1.debriefs = db.debriefs := by
  rw [transcriptUpsert]
  cases db.transcripts.find? (fun t => decide (t.recordingId = recId)) <;> simp

lemma debriefUpsert_pres (db : Db) (recId newId markdown : String)
    (sections : List DebriefSectionRow) :
    (debriefUpsert db recId newId markdown sections).1.jobs = db.jobs ∧
    (debriefUpsert db recId newId markdown sections).1.recordings = db.recordings ∧
    (debriefUpsert db recId newId markdown sections).1.transcripts = db.transcripts := by
  rw [debriefUpsert]
  cases db.debriefs.find? (fun d => decide (d.recordingId = recId)) <;> simp

lemma jobCreate_pres (db : Db) (newId recId : String) (t : JobType) :
    (jobCreate db newId recId t).1.recordings = db.recordings ∧
    (jobCreate db newId recId t).1.transcripts = db.transcripts ∧
    (jobCreate db newId recId t).1.debriefs = db.debriefs ∧
    (∀ x, jobExists db x = true → jobExists (jobCreate db newId recId t).1 x = true) := by
  refine ⟨rfl, rfl, rfl, ?_⟩
  intro x hx
  simp only [jobExists, jobCreate] at hx ⊢
  rw [List.any_append]
  simp [hx]

lemma updateJobStatus_error_applies (db : Db) (i : String) (s : JobStatus)
    (e : String) (now : Nat) (hex : jobExists db i = true) (hne : e ≠ "") :
    (updateJobStatus db i s (some e) now).map (fun d => jobErrorOf d i) =
      Except.ok (some (some e)) := by
  simp only [jobExists] at hex
  rw [updateJobStatus, jobUpdate, if_pos hex]
  simp only [Except.map]
  rw [jobErrorOf, jobFind]
  simp only
  rw [List.find?_map]
  have hcomp : ((fun j : JobRow => decide (j.id = i)) ∘ (fun j : JobRow =>
      if j.id = i then
        { j with
          status := s
          startedAt := if s = .running then some now else j.startedAt
          completedAt := if s = .complete ∨ s = .failed then some now else j.completedAt
          error := if e = "" then j.error else some e }
      else j)) = fun j : JobRow => decide (j.id = i) := by
    funext j
    by_cases h : j.id = i <;> simp [h]
  rw [hcomp]
  obtain ⟨j0, hj0mem, hj0p⟩ := List.any_eq_true.mp hex
  have hsome : (db.jobs.find? (fun j => decide (j.id = i))).isSome := by
    rw [List.find?_isSome]
    exact ⟨j0, hj0mem, hj0p⟩
  obtain ⟨j1, hj1⟩ := Option.isSome_iff_exists.mp hsome
  have hpj1 : j1.id = i := by
    have hp := List.find?_some hj1
    simpa using hp
  rw [hj1]
  simp [hpj1, hne]

lemma recStatusOf_statusSet (db : Db) (i : String) (st : RecStatus)
    (hex : recExists db i = true) :
    (recordingUpdate db i (fun r => { r with status := st })).map
      (fun d => recStatusOf d i) = Except.ok (some st) := by
  simp only [recExists] at hex
  rw [recordingUpdate, if_pos hex]
  simp only [Except.map]
  rw [recStatusOf, recordingFind]
  simp only
  rw [List.find?_map]
  have hcomp : ((fun r : RecordingRow => decide (r.id = i)) ∘ (fun r : RecordingRow =>
      if r.id = i then { r with status := st } else r)) =
      fun r : RecordingRow => decide (r.id = i) := by
    funext r
    by_cases h : r.id = i <;> simp [h]
  rw [hcomp]
  obtain ⟨r0, hr0mem, hr0p⟩ := List.any_eq_true.mp hex
  have hsome : (db.recordings.find? (fun r => decide (r.id = i))).isSome := by
    rw [List.find?_isSome]
    exact ⟨r0, hr0mem, hr0p⟩
  obtain ⟨r1, hr1⟩ := Option.isSome_iff_exists.mp hsome
  have hpr1 : r1.id = i := by
    have hp := List.find?_some hr1
    simpa using hp
  rw [hr1]
  simp [hpr1]

-- ============================================
-- Transcription worker (transcription queue module)
-- ============================================

/-- The try block of the transcription worker processor: mark the job
running, resolve the download URL, transcribe, upsert the transcript, write
the rounded duration when the provider reported a truthy one, mark the job
complete, and if the recording can still be found create and enqueue the
DEBRIEF job.  dl and tr stand for the getPresignedDownloadUrl and transcribe
calls; each can throw.  Returns the state reached and the outcome. -/
def transcriptionTryBody (st : TState) (jd : TranscriptionJobData)
    (dl : Except String String) (tr : Except String TranscriptionResultT)
    (newTranscriptId newDebriefJobId : String) (now : Nat) :
    TState × Except String TWorkerRes :=
  match updateJobStatus st.db jd.jobId .running none now with
  | .error e => (st, .error e)
  | .ok db1 =>
    match dl with
    | .error e => ({ st with db := db1 }, .error e)
    | .ok _url =>
      match tr with
      | .error e => ({ st with db := db1 }, .error e)
      | .ok res =>
        match (match res.duration with
               | some d => if d = 0 then
                   Except.ok (transcriptUpsert db1 jd.recordingId newTranscriptId
                     res.text res.segments res.language).1
                 else recordingUpdate (transcriptUpsert db1 jd.recordingId newTranscriptId
                     res.text res.segments res.language).1 jd.recordingId
                   (fun r => { r with duration := some d })
               | none => Except.ok (transcriptUpsert db1 jd.recordingId newTranscriptId
                   res.text res.segments res.language).1) with
        | .error e => ({ st with db := (transcriptUpsert db1 jd.recordingId newTranscriptId
            res.text res.segments res.language).1 }, .error e)
        | .ok db3 =>
          match updateJobStatus db3 jd.jobId .complete none now with
          | .error e => ({ st with db := db3 }, .error e)
          | .ok db4 =>
            match recordingFind db4 jd.recordingId with
            | some rec =>
              ({ db := (jobCreate db4 newDebriefJobId jd.recordingId .DEBRIEF).1,
                 debriefQ := st.debriefQ ++
                   [⟨jd.recordingId, (jobCreate db4 newDebriefJobId jd.recordingId .DEBRIEF).2.id,
                     (transcriptUpsert db1 jd.recordingId newTranscriptId
                       res.text res.segments res.language).2, res.text, rec.mode,
                     rec.title, jd.userId⟩] },
               .ok ⟨(transcriptUpsert db1 jd.recordingId newTranscriptId
                   res.text res.segments res.language).2, res.text,
                 (res.segments.map List.length).getD 0, res.language⟩)
            | none =>
              ({ st with db := db4 },
               .ok ⟨(transcriptUpsert db1 jd.recordingId newTranscriptId
                   res.text res.segments res.language).2, res.text,
                 (res.segments.map List.length).getD 0, res.language⟩)

/-- The catch block of the transcription worker: mark the job failed with
the captured message, mark the recording failed, and re-throw; a failure
inside the catch itself replaces the error. -/
def transcriptionCatch (st1 : TState) (jd : TranscriptionJobData) (e : String)
    (now : Nat) : TState × Except String TWorkerRes :=
  match updateJobStatus st1.db jd.jobId .failed (some e) now with
  | .error e2 => (st1, .error e2)
  | .ok dbA =>
    match recordingUpdate dbA jd.recordingId (fun r => { r with status := .failed }) with
    | .error e2 => ({ st1 with db := dbA }, .error e2)
    | .ok dbB => ({ st1 with db := dbB }, .error e)

/-- The transcription worker processor: the try block, with its catch. -/
def transcriptionWorker (st : TState) (jd : TranscriptionJobData)
    (dl : Except String String) (tr : Except String TranscriptionResultT)
    (newTranscriptId newDebriefJobId : String) (now : Nat) :
    TState × Except String TWorkerRes :=
  match transcriptionTryBody st jd dl tr newTranscriptId newDebriefJobId now with
  | (st1, .ok v) => (st1, .ok v)
  | (st1, .error e) => transcriptionCatch st1 jd e now

-- ============================================
-- Debrief worker (debrief.queue.ts)
-- ============================================

/-- The try block of the debrief worker processor: mark the job running,
generate the debrief (gen), upsert it, mark the job complete, mark the
recording complete. -/
def debriefTryBody (db : Db) (jd : DebriefJobData) (gen : Except String DebriefResultT)
    (newDebriefId : String) (now : Nat) : Db × Except String DWorkerRes :=
  match updateJobStatus db jd.jobId .running none now with
  | .error e => (db, .error e)
  | .ok db1 =>
    match gen with
    | .error e => (db1, .error e)
    | .ok res =>
      match updateJobStatus (debriefUpsert db1 jd.recordingId newDebriefId
          res.markdown res.sections).1 jd.jobId .complete none now with
      | .error e => ((debriefUpsert db1 jd.recordingId newDebriefId
          res.markdown res.sections).1, .error e)
      | .ok db3 =>
        match recordingUpdate db3 jd.recordingId (fun r => { r with status := .complete }) with
        | .error e => (db3, .error e)
        | .ok db4 => (db4, .ok ⟨(debriefUpsert db1 jd.recordingId newDebriefId
            res.markdown res.sections).2, res.markdown, res.sections.length⟩)

/-- The catch block of the debrief worker. -/
def debriefCatch (db1 : Db) (jd : DebriefJobData) (e : String) (now : Nat) :
    Db × Except String DWorkerRes :=
  match updateJobStatus db1 jd.jobId .failed (some e) now with
  | .error e2 => (db1, .error e2)
  | .ok dbA =>
    match recordingUpdate dbA jd.recordingId (fun r => { r with status := .failed }) with
    | .error e2 => (dbA, .error e2)
    | .ok dbB => (dbB, .error e)

/-- The debrief worker processor: the try block, with its catch. -/
def debriefWorker (db : Db) (jd : DebriefJobData) (gen : Except String DebriefResultT)
    (newDebriefId : String) (now : Nat) : Db × Except String DWorkerRes :=
  match debriefTryBody db jd gen newDebriefId now with
  | (db1, .ok v) => (db1, .ok v)
  | (db1, .error e) => debriefCatch db1 jd e now

lemma transcriptionTryBody_pres (st : TState) (jd : TranscriptionJobData)
    (dl : Except String String) (tr : Except String TranscriptionResultT)
    (tid djid : String) (now : Nat) :
    recStatuses (transcriptionTryBody st jd dl tr tid djid now).1.db = recStatuses st.db ∧
    (∀ x, jobExists st.db x = true →
      jobExists (transcriptionTryBody st jd dl tr tid djid now).1.db x = true) ∧
    (∀ x, recExists (transcriptionTryBody st jd dl tr tid djid now).1.db x =
      recExists st.db x) := by
  unfold transcriptionTryBody
  split
  next e heq1 => exact ⟨rfl, fun x hx => hx, fun x => rfl⟩
  next db1 heq1 =>
  obtain ⟨hrec1, htr1, hde1, hjx1, -⟩ := updateJobStatus_ok_pres heq1
  have hst1 : recStatuses db1 = recStatuses st.db := recStatuses_congr hrec1
  have hrx1 : ∀ x, recExists db1 x = recExists st.db x := recExists_congr hrec1
  split
  next e => exact ⟨hst1, fun x hx => by rw [hjx1]; exact hx, hrx1⟩
  next _url =>
  split
  next e => exact ⟨hst1, fun x hx => by rw [hjx1]; exact hx, hrx1⟩
  next res =>
  obtain ⟨hj2, hr2, hd2⟩ := transcriptUpsert_pres db1 jd.recordingId tid
    res.text res.segments res.language
  have hst2 : recStatuses (transcriptUpsert db1 jd.recordingId tid res.text
      res.segments res.language).1 = recStatuses st.db := by
    rw [recStatuses_congr hr2, hst1]
  have hjx2 : ∀ x, jobExists (transcriptUpsert db1 jd.recordingId tid res.text
      res.segments res.language).1 x = jobExists st.db x := by
    intro x
    rw [jobExists_congr hj2, hjx1]
  have hrx2 : ∀ x, recExists (transcriptUpsert db1 jd.recordingId tid res.text
      res.segments res.language).1 x = recExists st.db x := by
    intro x
    rw [recExists_congr hr2, hrx1]
  split
  next e h3 => exact ⟨hst2, fun x hx => by rw [hjx2]; exact hx, hrx2⟩
  next db3 h3 =>
  have hdb3 : db3.jobs = (transcriptUpsert db1 jd.recordingId tid res.text
      res.segments res.language).1.jobs ∧
      recStatuses db3 = recStatuses (transcriptUpsert db1 jd.recordingId tid
        res.text res.segments res.language).1 ∧
      (∀ x, recExists db3 x = recExists (transcriptUpsert db1 jd.recordingId tid
        res.text res.segments res.language).1 x) := by
    split at h3
    · split at h3
      · cases h3
        exact ⟨rfl, rfl, fun x => rfl⟩
      · obtain ⟨hj, -, -, hrx⟩ := recordingUpdate_ok_pres h3 (fun r => rfl)
        exact ⟨hj, recordingUpdate_ok_recStatuses h3 (fun r => ⟨rfl, rfl⟩), hrx⟩
    · cases h3
      exact ⟨rfl, rfl, fun x => rfl⟩
  split
  next e h4 =>
    exact ⟨hdb3.2.1.trans hst2,
      fun x hx => by rw [jobExists_congr hdb3.1, hjx2]; exact hx,
      fun x => by rw [hdb3.2.2, hrx2]⟩
  next db4 h4 =>
  obtain ⟨hrec4, -, -, hjx4, -⟩ := updateJobStatus_ok_pres h4
  have hst4 : recStatuses db4 = recStatuses st.db := by
    rw [recStatuses_congr hrec4, hdb3.2.1, hst2]
  have hjx4t : ∀ x, jobExists st.db x = true → jobExists db4 x = true := by
    intro x hx
    rw [hjx4, jobExists_congr hdb3.1, hjx2]
    exact hx
  have hrx4 : ∀ x, recExists db4 x = recExists st.db x := by
    intro x
    rw [recExists_congr hrec4, hdb3.2.2, hrx2]
  split
  next rec h5 =>
    obtain ⟨hcr, hct, hcd, hcx⟩ := jobCreate_pres db4 djid jd.recordingId .DEBRIEF
    exact ⟨(recStatuses_congr hcr).trans hst4,
      fun x hx => hcx x (hjx4t x hx),
      fun x => by rw [recExists_congr hcr, hrx4]⟩
  next h5 => exact ⟨hst4, hjx4t, hrx4⟩

lemma jobErrorOf_congr {db db2 : Db} (h : db2.jobs = db.jobs) (x : String) :
    jobErrorOf db2 x = jobErrorOf db x := by
  rw [jobErrorOf, jobErrorOf, jobFind, jobFind, h]

lemma recordingFind_congr {db db2 : Db} (h : db2.recordings = db.recordings) (x : String) :
    recordingFind db2 x = recordingFind db x := by
  rw [recordingFind, recordingFind, h]

lemma transcriptionWorker_eq_catch {st : TState} {jd : TranscriptionJobData}
    {dl : Except String String} {tr : Except String TranscriptionResultT}
    {tid djid : String} {now : Nat} {st1 : TState} {e : String}
    (h : transcriptionTryBody st jd dl tr tid djid now = (st1, .error e)) :
    transcriptionWorker st jd dl tr tid djid now = transcriptionCatch st1 jd e now := by
  unfold transcriptionWorker
  rw [h]

lemma transcriptionWorker_eq_ok {st : TState} {jd : TranscriptionJobData}
    {dl : Except String String} {tr : Except String TranscriptionResultT}
    {tid djid : String} {now : Nat} {st1 : TState} {v : TWorkerRes}
    (h : transcriptionTryBody st jd dl tr tid djid now = (st1, .ok v)) :
    transcriptionWorker st jd dl tr tid djid now = (st1, .ok v) := by
  unfold transcriptionWorker
  rw [h]

lemma debriefWorker_eq_catch {db : Db} {jd : DebriefJobData}
    {gen : Except String DebriefResultT} {did : String} {now : Nat}
    {db1 : Db} {e : String}
    (h : debriefTryBody db jd gen did now = (db1, .error e)) :
    debriefWorker db jd gen did now = debriefCatch db1 jd e now := by
  unfold debriefWorker
  rw [h]

lemma debriefWorker_eq_ok {db : Db} {jd : DebriefJobData}
    {gen : Except String DebriefResultT} {did : String} {now : Nat}
    {db1 : Db} {v : DWorkerRes}
    (h : debriefTryBody db jd gen did now = (db1, .ok v)) :
    debriefWorker db jd gen did now = (db1, .ok v) := by
  unfold debriefWorker
  rw [h]

lemma transcriptionCatch_spec (st1 : TState) (jd : TranscriptionJobData)
    (e : String) (now : Nat)
    (hj1 : jobExists st1.db jd.jobId = true)
    (hr1 : recExists st1.db jd.recordingId = true) (hne : e ≠ "") :
    (transcriptionCatch st1 jd e now).2 = .error e ∧
    jobStatusOf (transcriptionCatch st1 jd e now).1.db jd.jobId = some .failed ∧
    jobErrorOf (transcriptionCatch st1 jd e now).1.db jd.jobId = some (some e) ∧
    recStatusOf (transcriptionCatch st1 jd e now).1.db jd.recordingId = some .failed := by
  unfold transcriptionCatch
  split
  next e2 heqA =>
    obtain ⟨dbA, hA⟩ := updateJobStatus_ok_of_exists .failed (some e) now hj1
    rw [hA] at heqA
    exact absurd heqA (by simp)
  next dbA heqA =>
    obtain ⟨hrecA, -, -, hjxA, -⟩ := updateJobStatus_ok_pres heqA
    have hrA : recExists dbA jd.recordingId = true := by
      rw [recExists_congr hrecA]
      exact hr1
    split
    next e2 heqB =>
      obtain ⟨dbB, hB⟩ := recordingUpdate_ok_of_exists
        (fun r => { r with status := RecStatus.failed }) hrA
      rw [hB] at heqB
      exact absurd heqB (by simp)
    next dbB heqB =>
      obtain ⟨hjB, -, -, -⟩ := recordingUpdate_ok_pres heqB (fun r => rfl)
      refine ⟨rfl, ?_, ?_, ?_⟩
      · rw [jobStatusOf_congr hjB]
        have happ := updateJobStatus_applies st1.db jd.jobId .failed (some e) now hj1
        rw [heqA] at happ
        simp only [Except.map] at happ
        exact Except.ok.inj happ
      · rw [jobErrorOf_congr hjB]
        have herr := updateJobStatus_error_applies st1.db jd.jobId .failed e now hj1 hne
        rw [heqA] at herr
        simp only [Except.map] at herr
        exact Except.ok.inj herr
      · have hrs := recStatusOf_statusSet dbA jd.recordingId .failed hrA
        rw [heqB] at hrs
        simp only [Except.map] at hrs
        exact Except.ok.inj hrs

lemma debriefCatch_spec (db1 : Db) (jd : DebriefJobData) (e : String) (now : Nat)
    (hj1 : jobExists db1 jd.jobId = true)
    (hr1 : recExists db1 jd.recordingId = true) (hne : e ≠ "") :
    (debriefCatch db1 jd e now).2 = .error e ∧
    jobStatusOf (debriefCatch db1 jd e now).1 jd.jobId = some .failed ∧
    jobErrorOf (debriefCatch db1 jd e now).1 jd.jobId = some (some e) ∧
    recStatusOf (debriefCatch db1 jd e now).1 jd.recordingId = some .failed := by
  unfold debriefCatch
  split
  next e2 heqA =>
    obtain ⟨dbA, hA⟩ := updateJobStatus_ok_of_exists .failed (some e) now hj1
    rw [hA] at heqA
    exact absurd heqA (by simp)
  next dbA heqA =>
    obtain ⟨hrecA, -, -, hjxA, -⟩ := updateJobStatus_ok_pres heqA
    have hrA : recExists dbA jd.recordingId = true := by
      rw [recExists_congr hrecA]
      exact hr1
    split
    next e2 heqB =>
      obtain ⟨dbB, hB⟩ := recordingUpdate_ok_of_exists
        (fun r => { r with status := RecStatus.failed }) hrA
      rw [hB] at heqB
      exact absurd heqB (by simp)
    next dbB heqB =>
      obtain ⟨hjB, -, -, -⟩ := recordingUpdate_ok_pres heqB (fun r => rfl)
      refine ⟨rfl, ?_, ?_, ?_⟩
      · rw [jobStatusOf_congr hjB]
        have happ := updateJobStatus_applies db1 jd.jobId .failed (some e) now hj1
        rw [heqA] at happ
        simp only [Except.map] at happ
        exact Except.ok.inj happ
      · rw [jobErrorOf_congr hjB]
        have herr := updateJobStatus_error_applies db1 jd.jobId .failed e now hj1 hne
        rw [heqA] at herr
        simp only [Except.map] at herr
        exact Except.ok.inj herr
      · have hrs := recStatusOf_statusSet dbA jd.recordingId .failed hrA
        rw [heqB] at hrs
        simp only [Except.map] at hrs
        exact Except.ok.inj hrs

lemma debriefTryBody_pres (db : Db) (jd : DebriefJobData)
    (gen : Except String DebriefResultT) (did : String) (now : Nat) :
    (∀ x, jobExists db x = true → jobExists (debriefTryBody db jd gen did now).1 x = true) ∧
    (∀ x, recExists (debriefTryBody db jd gen did now).1 x = recExists db x) := by
  unfold debriefTryBody
  split
  next e heq1 => exact ⟨fun x hx => hx, fun x => rfl⟩
  next db1 heq1 =>
  obtain ⟨hrec1, -, -, hjx1, -⟩ := updateJobStatus_ok_pres heq1
  have hrx1 : ∀ x, recExists db1 x = recExists db x := recExists_congr hrec1
  split
  next e => exact ⟨fun x hx => by rw [hjx1]; exact hx, hrx1⟩
  next res =>
  obtain ⟨hj2, hr2, ht2⟩ := debriefUpsert_pres db1 jd.recordingId did
    res.markdown res.sections
  have hjx2 : ∀ x, jobExists (debriefUpsert db1 jd.recordingId did res.markdown
      res.sections).1 x = jobExists db x := by
    intro x
    rw [jobExists_congr hj2, hjx1]
  have hrx2 : ∀ x, recExists (debriefUpsert db1 jd.recordingId did res.markdown
      res.sections).1 x = recExists db x := by
    intro x
    rw [recExists_congr hr2, hrx1]
  split
  next e h3 => exact ⟨fun x hx => by rw [hjx2]; exact hx, hrx2⟩
  next db3 h3 =>
  obtain ⟨hrec3, -, -, hjx3, -⟩ := updateJobStatus_ok_pres h3
  have hjx3t : ∀ x, jobExists db x = true → jobExists db3 x = true := by
    intro x hx
    rw [hjx3, hjx2]
    exact hx
  have hrx3 : ∀ x, recExists db3 x = recExists db x := by
    intro x
    rw [recExists_congr hrec3, hrx2]
  split
  next e h4 => exact ⟨hjx3t, hrx3⟩
  next db4 h4 =>
  obtain ⟨hj4, -, -, hrx4⟩ := recordingUpdate_ok_pres h4 (fun r => rfl)
  exact ⟨fun x hx => by rw [jobExists_congr hj4]; exact hjx3t x hx,
    fun x => by rw [hrx4, hrx3]⟩

/-- C2: for either worker, when any step of the try block throws, the catch
block first writes the failure to the Job row (status failed, the captured
non-empty error message) and to the Recording row (status failed), and then
re-raises the same error to the queue.  The hypotheses are that the job row
and the recording row referenced by the payload exist, which the scheduling
operations guarantee. -/
theorem c2_worker_failure_writes_then_rethrows :
    (∀ (st : TState) (jd : TranscriptionJobData) (dl : Except String String)
        (tr : Except String TranscriptionResultT) (tid djid : String) (now : Nat)
        (st1 : TState) (e : String),
      jobExists st.db jd.jobId = true →
      recExists st.db jd.recordingId = true →
      e ≠ "" →
      transcriptionTryBody st jd dl tr tid djid now = (st1, .error e) →
      (transcriptionWorker st jd dl tr tid djid now).2 = .error e ∧
      jobStatusOf (transcriptionWorker st jd dl tr tid djid now).1.db jd.jobId =
        some .failed ∧
      jobErrorOf (transcriptionWorker st jd dl tr tid djid now).1.db jd.jobId =
        some (some e) ∧
      recStatusOf (transcriptionWorker st jd dl tr tid djid now).1.db jd.recordingId =
        some .failed) ∧
    (∀ (db : Db) (jd : DebriefJobData) (gen : Except String DebriefResultT)
        (did : String) (now : Nat) (db1 : Db) (e : String),
      jobExists db jd.jobId = true →
      recExists db jd.recordingId = true →
      e ≠ "" →
      debriefTryBody db jd gen did now = (db1, .error e) →
      (debriefWorker db jd gen did now).2 = .error e ∧
      jobStatusOf (debriefWorker db jd gen did now).1 jd.jobId = some .failed ∧
      jobErrorOf (debriefWorker db jd gen did now).1 jd.jobId = some (some e) ∧
      recStatusOf (debriefWorker db jd gen did now).1 jd.recordingId = some .failed) := by
  constructor
  · intro st jd dl tr tid djid now st1 e hj hr hne htry
    have hpres := transcriptionTryBody_pres st jd dl tr tid djid now
    rw [htry] at hpres
    obtain ⟨-, hjp, hrp⟩ := hpres
    have hj1 : jobExists st1.db jd.jobId = true := hjp _ hj
    have hr1 : recExists st1.db jd.recordingId = true := by
      rw [hrp]
      exact hr
    rw [transcriptionWorker_eq_catch htry]
    exact transcriptionCatch_spec st1 jd e now hj1 hr1 hne
  · intro db jd gen did now db1 e hj hr hne htry
    have hpres := debriefTryBody_pres db jd gen did now
    rw [htry] at hpres
    obtain ⟨hjp, hrp⟩ := hpres
    have hj1 : jobExists db1 jd.jobId = true := hjp _ hj
    have hr1 : recExists db1 jd.recordingId = true := by
      rw [hrp]
      exact hr
    rw [debriefWorker_eq_catch htry]
    exact debriefCatch_spec db1 jd e now hj1 hr1 hne

/-- Witness for C2: a transcription run whose download-URL step throws, and a
debrief run whose generation step throws. -/
theorem c2_worker_failure_writes_then_rethrows_witness :
    ((transcriptionWorker
        ⟨⟨[⟨"r1", "u1", "T", "general", RecStatus.processing, some "k",
            some "audio/webm", none, none⟩],
          [⟨"j1", "r1", JobType.TRANSCRIBE, JobStatus.pending, none, none, none⟩],
          [], []⟩, []⟩
        ⟨"r1", "j1", "k", "audio/webm", "u1"⟩
        (.error "boom") (.ok ⟨"x", none, "en", none⟩) "t1" "d2" 5).2 = .error "boom" ∧
      jobStatusOf (transcriptionWorker
        ⟨⟨[⟨"r1", "u1", "T", "general", RecStatus.processing, some "k",
            some "audio/webm", none, none⟩],
          [⟨"j1", "r1", JobType.TRANSCRIBE, JobStatus.pending, none, none, none⟩],
          [], []⟩, []⟩
        ⟨"r1", "j1", "k", "audio/webm", "u1"⟩
        (.error "boom") (.ok ⟨"x", none, "en", none⟩) "t1" "d2" 5).1.db "j1" =
          some .failed ∧
      jobErrorOf (transcriptionWorker
        ⟨⟨[⟨"r1", "u1", "T", "general", RecStatus.processing, some "k",
            some "audio/webm", none, none⟩],
          [⟨"j1", "r1", JobType.TRANSCRIBE, JobStatus.pending, none, none, none⟩],
          [], []⟩, []⟩
        ⟨"r1", "j1", "k", "audio/webm", "u1"⟩
        (.error "boom") (.ok ⟨"x", none, "en", none⟩) "t1" "d2" 5).1.db "j1" =
          some (some "boom") ∧
      recStatusOf (transcriptionWorker
        ⟨⟨[⟨"r1", "u1", "T", "general", RecStatus.processing, some "k",
            some "audio/webm", none, none⟩],
          [⟨"j1", "r1", JobType.TRANSCRIBE, JobStatus.pending, none, none, none⟩],
          [], []⟩, []⟩
        ⟨"r1", "j1", "k", "audio/webm", "u1"⟩
        (.error "boom") (.ok ⟨"x", none, "en", none⟩) "t1" "d2" 5).1.db "r1" =
          some .failed) ∧
    ((debriefWorker
        ⟨[⟨"r1", "u1", "T", "general", RecStatus.processing, some "k",
            some "audio/webm", none, none⟩],
         [⟨"j2", "r1", JobType.DEBRIEF, JobStatus.pending, none, none, none⟩],
         [], []⟩
        ⟨"r1", "j2", "t1", "x", "general", "T", "u1"⟩
        (.error "bad") "d1" 6).2 = .error "bad" ∧
      jobStatusOf (debriefWorker
        ⟨[⟨"r1", "u1", "T", "general", RecStatus.processing, some "k",
            some "audio/webm", none, none⟩],
         [⟨"j2", "r1", JobType.DEBRIEF, JobStatus.pending, none, none, none⟩],
         [], []⟩
        ⟨"r1", "j2", "t1", "x", "general", "T", "u1"⟩
        (.error "bad") "d1" 6).1 "j2" = some .failed ∧
      jobErrorOf (debriefWorker
        ⟨[⟨"r1", "u1", "T", "general", RecStatus.processing, some "k",
            some "audio/webm", none, none⟩],
         [⟨"j2", "r1", JobType.DEBRIEF, JobStatus.pending, none, none, none⟩],
         [], []⟩
        ⟨"r1", "j2", "t1", "x", "general", "T", "u1"⟩
        (.error "bad") "d1" 6).1 "j2" = some (some "bad") ∧
      recStatusOf (debriefWorker
        ⟨[⟨"r1", "u1", "T", "general", RecStatus.processing, some "k",
            some "audio/webm", none, none⟩],
         [⟨"j2", "r1", JobType.DEBRIEF, JobStatus.pending, none, none, none⟩],
         [], []⟩
        ⟨"r1", "j2", "t1", "x", "general", "T", "u1"⟩
        (.error "bad") "d1" 6).1 "r1" = some .failed) := by
  constructor
  · exact c2_worker_failure_writes_then_rethrows.1
      ⟨⟨[⟨"r1", "u1", "T", "general", RecStatus.processing, some "k",
          some "audio/webm", none, none⟩],
        [⟨"j1", "r1", JobType.TRANSCRIBE, JobStatus.pending, none, none, none⟩],
        [], []⟩, []⟩
      ⟨"r1", "j1", "k", "audio/webm", "u1"⟩
      (.error "boom") (.ok ⟨"x", none, "en", none⟩) "t1" "d2" 5
      ⟨⟨[⟨"r1", "u1", "T", "general", RecStatus.processing, some "k",
          some "audio/webm", none, none⟩],
        [⟨"j1", "r1", JobType.TRANSCRIBE, JobStatus.running, none, some 5, none⟩],
        [], []⟩, []⟩
      "boom" (by decide) (by decide) (by decide) (by rfl)
  · exact c2_worker_failure_writes_then_rethrows.2
      ⟨[⟨"r1", "u1", "T", "general", RecStatus.processing, some "k",
          some "audio/webm", none, none⟩],
       [⟨"j2", "r1", JobType.DEBRIEF, JobStatus.pending, none, none, none⟩],
       [], []⟩
      ⟨"r1", "j2", "t1", "x", "general", "T", "u1"⟩
      (.error "bad") "d1" 6
      ⟨[⟨"r1", "u1", "T", "general", RecStatus.processing, some "k",
          some "audio/webm", none, none⟩],
       [⟨"j2", "r1", JobType.DEBRIEF, JobStatus.running, none, some 6, none⟩],
       [], []⟩
      "bad" (by decide) (by decide) (by decide) (by rfl)

lemma transcriptionTryBody_no_recording (st : TState) (jd : TranscriptionJobData)
    (url : String) (res : TranscriptionResultT) (tid djid : String) (now : Nat)
    (hno : recordingFind st.db jd.recordingId = none)
    (hjob : jobExists st.db jd.jobId = true)
    (hdur : res.duration = none) :
    ∃ db4 v, transcriptionTryBody st jd (.ok url) (.ok res) tid djid now =
      ({ st with db := db4 }, .ok v) ∧
      db4.jobs.map (fun j => (j.id, j.jtype)) =
        st.db.jobs.map (fun j => (j.id, j.jtype)) := by
  unfold transcriptionTryBody
  split
  next e heq1 =>
    obtain ⟨db1, h1⟩ := updateJobStatus_ok_of_exists .running none now hjob
    rw [h1] at heq1
    exact absurd heq1 (by simp)
  next db1 heq1 =>
    obtain ⟨hrec1, -, -, hjx1, hjm1⟩ := updateJobStatus_ok_pres heq1
    dsimp only
    rw [hdur]
    dsimp only
    have hup := transcriptUpsert_pres db1 jd.recordingId tid res.text
      res.segments res.language
    have hjob2 : jobExists (transcriptUpsert db1 jd.recordingId tid res.text
        res.segments res.language).1 jd.jobId = true := by
      rw [jobExists_congr hup.1, hjx1]
      exact hjob
    obtain ⟨db4, h4⟩ := updateJobStatus_ok_of_exists .complete none now hjob2
    rw [h4]
    dsimp only
    obtain ⟨hrec4, -, -, hjx4, hjm4⟩ := updateJobStatus_ok_pres h4
    have hfind : recordingFind db4 jd.recordingId = none := by
      rw [recordingFind_congr hrec4, recordingFind_congr hup.2.1,
        recordingFind_congr hrec1]
      exact hno
    rw [hfind]
    dsimp only
    refine ⟨db4, _, rfl, ?_⟩
    rw [hjm4, congrArg (List.map (fun j => (j.id, j.jtype))) hup.1, hjm1]

/-- C10: when the transcription worker has persisted the transcript and
marked the TRANSCRIBE job complete but the recording row can no longer be
found, the worker returns success, enqueues nothing on the debrief queue,
creates no DEBRIEF job, and raises no error.  duration must be absent,
otherwise the earlier duration write would already have thrown. -/
theorem c10_missing_recording_silent_end :
    ∀ (st : TState) (jd : TranscriptionJobData) (url : String)
      (res : TranscriptionResultT) (tid djid : String) (now : Nat),
      recordingFind st.db jd.recordingId = none →
      jobExists st.db jd.jobId = true →
      res.duration = none →
      ((transcriptionWorker st jd (.ok url) (.ok res) tid djid now).2).isOk = true ∧
      (transcriptionWorker st jd (.ok url) (.ok res) tid djid now).1.debriefQ =
        st.debriefQ ∧
      (transcriptionWorker st jd (.ok url) (.ok res) tid djid now).1.db.jobs.map
        (fun j => (j.id, j.jtype)) = st.db.jobs.map (fun j => (j.id, j.jtype)) := by
  intro st jd url res tid djid now hno hjob hdur
  obtain ⟨db4, v, htry, hjobs⟩ :=
    transcriptionTryBody_no_recording st jd url res tid djid now hno hjob hdur
  rw [transcriptionWorker_eq_ok htry]
  exact ⟨rfl, rfl, hjobs⟩

/-- Witness for C10: the recording row is absent while the job row exists. -/
theorem c10_missing_recording_silent_end_witness :
    ((transcriptionWorker
        ⟨⟨[], [⟨"j1", "r1", JobType.TRANSCRIBE, JobStatus.pending, none, none, none⟩],
          [], []⟩, []⟩
        ⟨"r1", "j1", "k", "audio/webm", "u1"⟩
        (.ok "u") (.ok ⟨"x", none, "en", none⟩) "t1" "d2" 5).2).isOk = true ∧
    (transcriptionWorker
        ⟨⟨[], [⟨"j1", "r1", JobType.TRANSCRIBE, JobStatus.pending, none, none, none⟩],
          [], []⟩, []⟩
        ⟨"r1", "j1", "k", "audio/webm", "u1"⟩
        (.ok "u") (.ok ⟨"x", none, "en", none⟩) "t1" "d2" 5).1.debriefQ = [] ∧
    (transcriptionWorker
        ⟨⟨[], [⟨"j1", "r1", JobType.TRANSCRIBE, JobStatus.pending, none, none, none⟩],
          [], []⟩, []⟩
        ⟨"r1", "j1", "k", "audio/webm", "u1"⟩
        (.ok "u") (.ok ⟨"x", none, "en", none⟩) "t1" "d2" 5).1.db.jobs.map
      (fun j => (j.id, j.jtype)) = [("j1", JobType.TRANSCRIBE)] := by
  have h := c10_missing_recording_silent_end
    ⟨⟨[], [⟨"j1", "r1", JobType.TRANSCRIBE, JobStatus.pending, none, none, none⟩],
      [], []⟩, []⟩
    ⟨"r1", "j1", "k", "audio/webm", "u1"⟩
    "u" ⟨"x", none, "en", none⟩ "t1" "d2" 5 (by rfl) (by decide) (by rfl)
  exact ⟨h.1, h.2.1, h.2.2.trans (by rfl)⟩

-- ============================================
-- C1: when is a Recording set to complete
-- ============================================

/-- C1 counterexample: the saveTranscript service operation flips a
processing Recording straight to complete after persisting only the
Transcript, with no Debrief in the database, so a status of complete is
reached without the debrief stage having succeeded and without a Debrief
existing. -/
theorem c1_counterexample_save_transcript_completes :
    recStatusOf (saveTranscript
      ⟨[⟨"r1", "u1", "T", "general", RecStatus.processing, some "k", none, none, none⟩],
       [], [], []⟩ "r1" "hello" none "en" "t1") "r1" = some RecStatus.complete ∧
    debriefFind (saveTranscript
      ⟨[⟨"r1", "u1", "T", "general", RecStatus.processing, some "k", none, none, none⟩],
       [], [], []⟩ "r1" "hello" none "en" "t1") "r1" = none := by
  exact ⟨rfl, rfl⟩

lemma transcriptionCatch_always_error (st1 : TState) (jd : TranscriptionJobData)
    (e : String) (now : Nat) :
    ∃ st2 e2, transcriptionCatch st1 jd e now = (st2, .error e2) := by
  unfold transcriptionCatch
  split
  next e2 heq => exact ⟨_, _, rfl⟩
  next dbA heq =>
    split
    next e2 heq2 => exact ⟨_, _, rfl⟩
    next dbB heq2 => exact ⟨_, _, rfl⟩

lemma debriefCatch_always_error (db1 : Db) (jd : DebriefJobData) (e : String)
    (now : Nat) :
    ∃ db2 e2, debriefCatch db1 jd e now = (db2, .error e2) := by
  unfold debriefCatch
  split
  next e2 heq => exact ⟨_, _, rfl⟩
  next dbA heq =>
    split
    next e2 heq2 => exact ⟨_, _, rfl⟩
    next dbB heq2 => exact ⟨_, _, rfl⟩

lemma debriefFind_congr {db db2 : Db} (h : db2.debriefs = db.debriefs) (x : String) :
    debriefFind db2 x = debriefFind db x := by
  rw [debriefFind, debriefFind, h]

lemma transcriptFind_congr {db db2 : Db} (h : db2.transcripts = db.transcripts)
    (x : String) :
    transcriptFind db2 x = transcriptFind db x := by
  rw [transcriptFind, transcriptFind, h]

lemma debriefUpsert_find (db : Db) (recId newId md : String)
    (secs : List DebriefSectionRow) :
    (debriefFind (debriefUpsert db recId newId md secs).1 recId).map
      (fun d => (d.markdown, d.sections)) = some (md, secs) := by
  rw [debriefUpsert]
  cases hf : db.debriefs.find? (fun d => decide (d.recordingId = recId)) with
  | some d0 =>
    simp only
    rw [debriefFind]
    simp only
    rw [List.find?_map]
    have hcomp : ((fun d : DebriefRow => decide (d.recordingId = recId)) ∘
        (fun d : DebriefRow => if d.recordingId = recId then
          { d with markdown := md, sections := secs } else d)) =
        fun d : DebriefRow => decide (d.recordingId = recId) := by
      funext d
      by_cases h : d.recordingId = recId <;> simp [h]
    rw [hcomp, hf]
    have hp : d0.recordingId = recId := by
      have := List.find?_some hf
      simpa using this
    simp [hp]
  | none =>
    simp only
    rw [debriefFind]
    simp only
    rw [List.find?_append, hf]
    simp

lemma recordingUpdate_ok_exists_cond {db : Db} {i : String}
    {f : RecordingRow → RecordingRow} {db2 : Db}
    (h : recordingUpdate db i f = .ok db2) : recExists db i = true := by
  rw [recordingUpdate] at h
  split at h
  next hc => simpa [recExists] using hc
  next hc => exact absurd h (by simp)

lemma debriefTryBody_ok_spec {db : Db} {jd : DebriefJobData}
    {gen : Except String DebriefResultT} {did : String} {now : Nat}
    {db1 : Db} {v : DWorkerRes}
    (h : debriefTryBody db jd gen did now = (db1, .ok v)) :
    recStatusOf db1 jd.recordingId = some RecStatus.complete ∧
    (debriefFind db1 jd.recordingId).isSome = true := by
  unfold debriefTryBody at h
  split at h
  next e heq1 => simp at h
  next dbr heq1 =>
    split at h
    next e => simp at h
    next res =>
      split at h
      next e h3 => simp at h
      next db3 h3 =>
        split at h
        next e h4 => simp at h
        next db4 h4 =>
          obtain ⟨hdb, -⟩ := Prod.mk.inj h
          subst hdb
          constructor
          · have hex3 : recExists db3 jd.recordingId = true :=
              recordingUpdate_ok_exists_cond h4
            have hrs := recStatusOf_statusSet db3 jd.recordingId .complete hex3
            rw [h4] at hrs
            simp only [Except.map] at hrs
            exact Except.ok.inj hrs
          · obtain ⟨-, -, hdeb4, -⟩ := recordingUpdate_ok_pres h4 (fun r => rfl)
            obtain ⟨-, -, hdeb3, -, -⟩ := updateJobStatus_ok_pres h3
            rw [debriefFind_congr hdeb4, debriefFind_congr hdeb3]
            have hfind := debriefUpsert_find dbr jd.recordingId did res.markdown res.sections
            cases hopt : debriefFind (debriefUpsert dbr jd.recordingId did
                res.markdown res.sections).1 jd.recordingId with
            | none => rw [hopt] at hfind; simp at hfind
            | some d => rfl

lemma transcriptionWorker_ok_recStatuses {st : TState} {jd : TranscriptionJobData}
    {dl : Except String String} {tr : Except String TranscriptionResultT}
    {tid djid : String} {now : Nat} {st1 : TState} {v : TWorkerRes}
    (h : transcriptionWorker st jd dl tr tid djid now = (st1, .ok v)) :
    recStatuses st1.db = recStatuses st.db := by
  cases htry : transcriptionTryBody st jd dl tr tid djid now with
  | mk st2 r =>
    cases r with
    | ok v2 =>
      rw [transcriptionWorker_eq_ok htry] at h
      obtain ⟨h1, -⟩ := Prod.mk.inj h
      have hp := (transcriptionTryBody_pres st jd dl tr tid djid now).1
      rw [htry] at hp
      rw [← h1]
      exact hp
    | error e =>
      rw [transcriptionWorker_eq_catch htry] at h
      obtain ⟨st3, e2, hc⟩ := transcriptionCatch_always_error st2 jd e now
      rw [hc] at h
      exact absurd (Prod.mk.inj h).2 (by simp)

lemma debriefWorker_ok_spec {db : Db} {jd : DebriefJobData}
    {gen : Except String DebriefResultT} {did : String} {now : Nat}
    {db1 : Db} {v : DWorkerRes}
    (h : debriefWorker db jd gen did now = (db1, .ok v)) :
    recStatusOf db1 jd.recordingId = some RecStatus.complete ∧
    (debriefFind db1 jd.recordingId).isSome = true := by
  cases htry : debriefTryBody db jd gen did now with
  | mk db2 r =>
    cases r with
    | ok v2 =>
      rw [debriefWorker_eq_ok htry] at h
      obtain ⟨h1, h2⟩ := Prod.mk.inj h
      subst h1
      cases Except.ok.inj h2
      exact debriefTryBody_ok_spec htry
    | error e =>
      rw [debriefWorker_eq_catch htry] at h
      obtain ⟨db3, e2, hc⟩ := debriefCatch_always_error db2 jd e now
      rw [hc] at h
      exact absurd (Prod.mk.inj h).2 (by simp)

lemma saveTranscript_spec (db : Db) (recId text : String)
    (segs : Option (List SegmentRow)) (lang newId : String)
    (h : recStatusOf db recId = some RecStatus.processing) :
    recStatusOf (saveTranscript db recId text segs lang newId) recId =
      some RecStatus.complete ∧
    (transcriptFind (saveTranscript db recId text segs lang newId) recId).isSome = true ∧
    (saveTranscript db recId text segs lang newId).debriefs = db.debriefs := by
  have hup := transcriptUpsert_pres db recId newId text segs lang
  refine ⟨?_, ?_, ?_⟩
  · rw [saveTranscript]
    rw [recStatusOf, recordingFind, recordingUpdateMany]
    dsimp only
    rw [List.find?_map]
    have hcomp : ((fun r : RecordingRow => decide (r.id = recId)) ∘ (fun r =>
        if (decide (r.id = recId) && decide (r.status = RecStatus.processing)) = true
        then { r with status := RecStatus.complete } else r)) =
        fun r : RecordingRow => decide (r.id = recId) := by
      funext r
      by_cases hid : r.id = recId
      · by_cases hst : r.status = RecStatus.processing <;> simp [hid, hst]
      · simp [hid]
    rw [hcomp, hup.2.1]
    rw [recStatusOf, recordingFind] at h
    cases hopt : db.recordings.find? (fun r => decide (r.id = recId)) with
    | none => rw [hopt] at h; simp at h
    | some r0 =>
      rw [hopt] at h
      simp only [Option.map] at h
      have hst0 : r0.status = RecStatus.processing := Option.some.inj h
      have hid0 : r0.id = recId := by
        have := List.find?_some hopt
        simpa using this
      simp [Option.map, hid0, hst0]
  · rw [saveTranscript]
    have htreq : (recordingUpdateMany (transcriptUpsert db recId newId text segs
        lang).1 (fun r => decide (r.id = recId) && decide (r.status =
        RecStatus.processing)) (fun r => { r with status := RecStatus.complete
        })).transcripts = (transcriptUpsert db recId newId text segs
        lang).1.transcripts := rfl
    rw [transcriptFind_congr htreq]
    have hfind := transcriptUpsert_find db recId newId text segs lang
    cases hopt : transcriptFind (transcriptUpsert db recId newId text segs lang).1
        recId with
    | none => rw [hopt] at hfind; simp at hfind
    | some t => rfl
  · rw [saveTranscript]
    exact hup.2.2

/-- C1 amended: in the queue pipeline the claim holds - a successful
transcription worker run never changes any Recording status, and the debrief
worker sets a Recording to complete only in the same run that persisted the
Debrief (so its final state has the Debrief present); however the service
function saveTranscript, outside the worker pipeline, moves a processing
Recording to complete after persisting only the Transcript, leaving the
debriefs unchanged (possibly absent), so complete guarantees a Transcript
but not a Debrief in general. -/
theorem c1_amended_complete_only_after_debrief :
    (∀ (st : TState) (jd : TranscriptionJobData) (dl : Except String String)
        (tr : Except String TranscriptionResultT) (tid djid : String) (now : Nat)
        (st1 : TState) (v : TWorkerRes),
      transcriptionWorker st jd dl tr tid djid now = (st1, .ok v) →
      recStatuses st1.db = recStatuses st.db) ∧
    (∀ (db : Db) (jd : DebriefJobData) (gen : Except String DebriefResultT)
        (did : String) (now : Nat) (db1 : Db) (v : DWorkerRes),
      debriefWorker db jd gen did now = (db1, .ok v) →
      recStatusOf db1 jd.recordingId = some RecStatus.complete ∧
      (debriefFind db1 jd.recordingId).isSome = true) ∧
    (∀ (db : Db) (recId text : String) (segs : Option (List SegmentRow))
        (lang newId : String),
      recStatusOf db recId = some RecStatus.processing →
      recStatusOf (saveTranscript db recId text segs lang newId) recId =
        some RecStatus.complete ∧
      (transcriptFind (saveTranscript db recId text segs lang newId) recId).isSome =
        true ∧
      (saveTranscript db recId text segs lang newId).debriefs = db.debriefs) :=
  ⟨fun _ _ _ _ _ _ _ _ _ h => transcriptionWorker_ok_recStatuses h,
   fun _ _ _ _ _ _ _ h => debriefWorker_ok_spec h,
   fun db recId text segs lang newId h =>
     saveTranscript_spec db recId text segs lang newId h⟩

/-- Witness for C1 amended: a successful transcription run, a successful
debrief run, and a saveTranscript call on a processing recording. -/
theorem c1_amended_complete_only_after_debrief_witness :
    recStatuses ((transcriptionWorker
        ⟨⟨[⟨"r1", "u1", "T", "general", RecStatus.processing, some "k",
            some "audio/webm", none, none⟩],
          [⟨"j1", "r1", JobType.TRANSCRIBE, JobStatus.pending, none, none, none⟩],
          [], []⟩, []⟩
        ⟨"r1", "j1", "k", "audio/webm", "u1"⟩
        (.ok "u") (.ok ⟨"x", none, "en", none⟩) "t1" "d2" 5).1.db) =
      recStatuses ⟨[⟨"r1", "u1", "T", "general", RecStatus.processing, some "k",
          some "audio/webm", none, none⟩],
        [⟨"j1", "r1", JobType.TRANSCRIBE, JobStatus.pending, none, none, none⟩],
        [], []⟩ ∧
    (recStatusOf ((debriefWorker
        ⟨[⟨"r1", "u1", "T", "general", RecStatus.processing, some "k",
            some "audio/webm", none, none⟩],
         [⟨"j2", "r1", JobType.DEBRIEF, JobStatus.pending, none, none, none⟩],
         [⟨"t1", "r1", "x", none, "en"⟩], []⟩
        ⟨"r1", "j2", "t1", "x", "general", "T", "u1"⟩
        (.ok ⟨"md", []⟩) "d9" 7).1) "r1" = some RecStatus.complete ∧
      (debriefFind ((debriefWorker
        ⟨[⟨"r1", "u1", "T", "general", RecStatus.processing, some "k",
            some "audio/webm", none, none⟩],
         [⟨"j2", "r1", JobType.DEBRIEF, JobStatus.pending, none, none, none⟩],
         [⟨"t1", "r1", "x", none, "en"⟩], []⟩
        ⟨"r1", "j2", "t1", "x", "general", "T", "u1"⟩
        (.ok ⟨"md", []⟩) "d9" 7).1) "r1").isSome = true) ∧
    (recStatusOf (saveTranscript
        ⟨[⟨"r1", "u1", "T", "general", RecStatus.processing, some "k",
            some "audio/webm", none, none⟩], [], [], []⟩
        "r1" "hello" none "en" "t9") "r1" = some RecStatus.complete ∧
      (transcriptFind (saveTranscript
        ⟨[⟨"r1", "u1", "T", "general", RecStatus.processing, some "k",
            some "audio/webm", none, none⟩], [], [], []⟩
        "r1" "hello" none "en" "t9") "r1").isSome = true ∧
      (saveTranscript
        ⟨[⟨"r1", "u1", "T", "general", RecStatus.processing, some "k",
            some "audio/webm", none, none⟩], [], [], []⟩
        "r1" "hello" none "en" "t9").debriefs = []) := by
  refine ⟨?_, ?_, ?_⟩
  · exact c1_amended_complete_only_after_debrief.1
      ⟨⟨[⟨"r1", "u1", "T", "general", RecStatus.processing, some "k",
          some "audio/webm", none, none⟩],
        [⟨"j1", "r1", JobType.TRANSCRIBE, JobStatus.pending, none, none, none⟩],
        [], []⟩, []⟩
      ⟨"r1", "j1", "k", "audio/webm", "u1"⟩
      (.ok "u") (.ok ⟨"x", none, "en", none⟩) "t1" "d2" 5
      ⟨⟨[⟨"r1", "u1", "T", "general", RecStatus.processing, some "k",
          some "audio/webm", none, none⟩],
        [⟨"j1", "r1", JobType.TRANSCRIBE, JobStatus.complete, none, some 5, some 5⟩,
         ⟨"d2", "r1", JobType.DEBRIEF, JobStatus.pending, none, none, none⟩],
        [⟨"t1", "r1", "x", none, "en"⟩], []⟩,
       [⟨"r1", "d2", "t1", "x", "general", "T", "u1"⟩]⟩
      ⟨"t1", "x", 0, "en"⟩ (by rfl)
  · exact c1_amended_complete_only_after_debrief.2.1
      ⟨[⟨"r1", "u1", "T", "general", RecStatus.processing, some "k",
          some "audio/webm", none, none⟩],
       [⟨"j2", "r1", JobType.DEBRIEF, JobStatus.pending, none, none, none⟩],
       [⟨"t1", "r1", "x", none, "en"⟩], []⟩
      ⟨"r1", "j2", "t1", "x", "general", "T", "u1"⟩
      (.ok ⟨"md", []⟩) "d9" 7
      ⟨[⟨"r1", "u1", "T", "general", RecStatus.complete, some "k",
          some "audio/webm", none, none⟩],
       [⟨"j2", "r1", JobType.DEBRIEF, JobStatus.complete, none, some 7, some 7⟩],
       [⟨"t1", "r1", "x", none, "en"⟩], [⟨"d9", "r1", "md", []⟩]⟩
      ⟨"d9", "md", 0⟩ (by rfl)
  · exact c1_amended_complete_only_after_debrief.2.2
      ⟨[⟨"r1", "u1", "T", "general", RecStatus.processing, some "k",
          some "audio/webm", none, none⟩], [], [], []⟩
      "r1" "hello" none "en" "t9" (by rfl)

-- ============================================
-- Route handler and retry operations with event traces
-- ============================================

/-- Observable events a scheduling operation emits, in order. -/
inductive TraceEvent
  | jobCreated (t : JobType)
  | enqueued (t : JobType)
  | statusSet (s : RecStatus)
  deriving DecidableEq, Repr

/-- Server state the route handlers act on: database plus both queues. -/
structure ApiState where
  db : Db
  transcriptionQ : List TranscriptionJobData
  debriefQ : List DebriefJobData
  deriving DecidableEq, Repr

/-- Modelled from the spec: createJob of the jobs service (jobs.service.ts is
not among the provided sources; the spec gives createJob(recordingId, type)
returning a Job with status pending). -/
def jobsServiceCreateJob (db : Db) (newId recId : String) (t : JobType) :
    Db × JobRow :=
  jobCreate db newId recId t

/-- Model of the complete-upload route handler: find the recording by id and
user (404 when absent), reject unless status is pending, reject without an
object key, reject when the object is absent from storage (objectExists);
then mark uploaded (with the optional fileSize), create the TRANSCRIBE job,
enqueue it, and set status processing.  storage is the set of object keys
that exist; the third component of the result is the emitted event trace. -/
def completeUploadHandler (st : ApiState) (storage : List String)
    (userId recId : String) (fileSize : Option Nat) (newJobId : String) :
    ApiState × Nat × List TraceEvent :=
  match recordingFindByUser st.db recId userId with
  | none => (st, 404, [])
  | some rec =>
    if rec.status ≠ RecStatus.pending then (st, 400, [])
    else match rec.objectKey with
      | none => (st, 400, [])
      | some key =>
        if storage.contains key = false then (st, 400, [])
        else
          match recordingUpdate st.db recId (fun r =>
            { r with
              status := RecStatus.uploaded
              fileSize := match fileSize with
                | some fs => some fs
                | none => r.fileSize }) with
          | .error _ => (st, 500, [])
          | .ok dbU =>
            match recordingUpdate (jobsServiceCreateJob dbU newJobId recId
                .TRANSCRIBE).1 recId
                (fun r => { r with status := RecStatus.processing }) with
            | .error _ =>
              ({ db := (jobsServiceCreateJob dbU newJobId recId .TRANSCRIBE).1,
                 transcriptionQ := st.transcriptionQ ++
                   [⟨recId, (jobsServiceCreateJob dbU newJobId recId .TRANSCRIBE).2.id,
                     key, rec.mimeType.getD "audio/mpeg", userId⟩],
                 debriefQ := st.debriefQ }, 500,
               [.statusSet .uploaded, .jobCreated .TRANSCRIBE, .enqueued .TRANSCRIBE])
            | .ok dbP =>
              ({ db := dbP,
                 transcriptionQ := st.transcriptionQ ++
                   [⟨recId, (jobsServiceCreateJob dbU newJobId recId .TRANSCRIBE).2.id,
                     key, rec.mimeType.getD "audio/mpeg", userId⟩],
                 debriefQ := st.debriefQ }, 200,
               [.statusSet .uploaded, .jobCreated .TRANSCRIBE, .enqueued .TRANSCRIBE,
                .statusSet .processing])

/-- Model of retryDebriefJob: find the recording with its transcript (null
when either is missing), flip the status to processing, create a new DEBRIEF
job row, then enqueue it. -/
def retryDebriefJobOp (st : ApiState) (recId newJobId : String) :
    ApiState × Option String × List TraceEvent :=
  match recordingFind st.db recId with
  | none => (st, none, [])
  | some rec =>
    match transcriptFind st.db recId with
    | none => (st, none, [])
    | some tr =>
      match recordingUpdate st.db recId
          (fun r => { r with status := RecStatus.processing }) with
      | .error _ => (st, none, [])
      | .ok dbP =>
        ({ db := (jobCreate dbP newJobId recId .DEBRIEF).1,
           transcriptionQ := st.transcriptionQ,
           debriefQ := st.debriefQ ++
             [⟨recId, (jobCreate dbP newJobId recId .DEBRIEF).2.id, tr.id, tr.text,
               rec.mode, rec.title, rec.userId⟩] },
         some ("debrief-" ++ recId),
         [.statusSet .processing, .jobCreated .DEBRIEF, .enqueued .DEBRIEF])

/-- Model of retryTranscriptionJob: find the recording (null when missing or
without an object key), flip the status to processing, create a new
TRANSCRIBE job row, then enqueue it. -/
def retryTranscriptionJobOp (st : ApiState) (recId newJobId : String) :
    ApiState × Option String × List TraceEvent :=
  match recordingFind st.db recId with
  | none => (st, none, [])
  | some rec =>
    match rec.objectKey with
    | none => (st, none, [])
    | some key =>
      match recordingUpdate st.db recId
          (fun r => { r with status := RecStatus.processing }) with
      | .error _ => (st, none, [])
      | .ok dbP =>
        ({ db := (jobCreate dbP newJobId recId .TRANSCRIBE).1,
           transcriptionQ := st.transcriptionQ ++
             [⟨recId, (jobCreate dbP newJobId recId .TRANSCRIBE).2.id, key,
               rec.mimeType.getD "audio/mpeg", rec.userId⟩],
           debriefQ := st.debriefQ },
         some ("transcribe-" ++ recId),
         [.statusSet .processing, .jobCreated .TRANSCRIBE, .enqueued .TRANSCRIBE])

/-- Whether an event is a queue enqueue. -/
def isEnqueueEvent : TraceEvent → Bool
  | .enqueued _ => true
  | _ => false

/-- Whether an event is a Job row creation. -/
def isJobCreatedEvent : TraceEvent → Bool
  | .jobCreated _ => true
  | _ => false

/-- True when every statusSet processing event in the trace is preceded by an
enqueue event; the accumulator records whether an enqueue has been seen. -/
def processingAfterEnqueue : Bool → List TraceEvent → Bool
  | _, [] => true
  | seen, e :: rest =>
    (if e = .statusSet .processing then seen else true) &&
      processingAfterEnqueue (seen || isEnqueueEvent e) rest

/-- True when every enqueue event in the trace is preceded by a Job row
creation; the accumulator records whether a creation has been seen. -/
def enqueueAfterJobCreated : Bool → List TraceEvent → Bool
  | _, [] => true
  | seen, e :: rest =>
    (if isEnqueueEvent e then seen else true) &&
      enqueueAfterJobCreated (seen || isJobCreatedEvent e) rest

lemma recExists_of_find {db : Db} {i : String} {r : RecordingRow}
    (h : recordingFind db i = some r) : recExists db i = true := by
  rw [recordingFind] at h
  rw [recExists, List.any_eq_true]
  refine ⟨r, List.mem_of_find?_eq_some h, ?_⟩
  have := List.find?_some h
  simpa using this

-- ============================================
-- C3: Job row before enqueue, enqueue before processing
-- ============================================

/-- C3 counterexample: the retry-debrief operation emits statusSet
processing as its very first event, before the Job row creation and before
the enqueue, so the Recording status is changed to processing without any
enqueue having been attempted. -/
theorem c3_counterexample_retry_sets_processing_first :
    (retryDebriefJobOp
      ⟨⟨[⟨"r1", "u1", "T", "general", RecStatus.failed, some "k",
          some "audio/webm", none, none⟩], [],
        [⟨"t1", "r1", "x", none, "en"⟩], []⟩, [], []⟩ "r1" "j9").2.2 =
      [.statusSet .processing, .jobCreated .DEBRIEF, .enqueued .DEBRIEF] ∧
    processingAfterEnqueue false (retryDebriefJobOp
      ⟨⟨[⟨"r1", "u1", "T", "general", RecStatus.failed, some "k",
          some "audio/webm", none, none⟩], [],
        [⟨"t1", "r1", "x", none, "en"⟩], []⟩, [], []⟩ "r1" "j9").2.2 = false := by
  exact ⟨rfl, rfl⟩

/-- C3 amended: in every scheduling operation the Job row is created before
the enqueue is issued; in mark-upload-complete the processing status change
also comes only after the enqueue, but both retry operations flip the
Recording to processing first, before creating the Job row and enqueueing
(their trace, when non-empty, begins with statusSet processing). -/
theorem c3_amended_scheduling_order :
    (∀ (st : ApiState) (storage : List String) (userId recId : String)
        (fs : Option Nat) (njid : String),
      ((completeUploadHandler st storage userId recId fs njid).2.2 = [] ∨
       (completeUploadHandler st storage userId recId fs njid).2.2 =
         [.statusSet .uploaded, .jobCreated .TRANSCRIBE, .enqueued .TRANSCRIBE] ∨
       (completeUploadHandler st storage userId recId fs njid).2.2 =
         [.statusSet .uploaded, .jobCreated .TRANSCRIBE, .enqueued .TRANSCRIBE,
          .statusSet .processing]) ∧
      enqueueAfterJobCreated false
        (completeUploadHandler st storage userId recId fs njid).2.2 = true ∧
      processingAfterEnqueue false
        (completeUploadHandler st storage userId recId fs njid).2.2 = true) ∧
    (∀ (st : ApiState) (recId njid : String),
      ((retryDebriefJobOp st recId njid).2.2 = [] ∨
       (retryDebriefJobOp st recId njid).2.2 =
         [.statusSet .processing, .jobCreated .DEBRIEF, .enqueued .DEBRIEF]) ∧
      enqueueAfterJobCreated false (retryDebriefJobOp st recId njid).2.2 = true) ∧
    (∀ (st : ApiState) (recId njid : String),
      ((retryTranscriptionJobOp st recId njid).2.2 = [] ∨
       (retryTranscriptionJobOp st recId njid).2.2 =
         [.statusSet .processing, .jobCreated .TRANSCRIBE, .enqueued .TRANSCRIBE]) ∧
      enqueueAfterJobCreated false (retryTranscriptionJobOp st recId njid).2.2 =
        true) := by
  refine ⟨?_, ?_, ?_⟩
  · intro st storage userId recId fs njid
    unfold completeUploadHandler
    split
    · exact ⟨Or.inl rfl, rfl, rfl⟩
    next rec heq =>
      split
      · exact ⟨Or.inl rfl, rfl, rfl⟩
      · split
        · exact ⟨Or.inl rfl, rfl, rfl⟩
        next key hkey =>
          split
          · exact ⟨Or.inl rfl, rfl, rfl⟩
          · split
            · exact ⟨Or.inl rfl, rfl, rfl⟩
            next dbU hU =>
              split
              · exact ⟨Or.inr (Or.inl rfl), rfl, rfl⟩
              next dbP hP => exact ⟨Or.inr (Or.inr rfl), rfl, rfl⟩
  · intro st recId njid
    unfold retryDebriefJobOp
    split
    · exact ⟨Or.inl rfl, rfl⟩
    next rec heq =>
      split
      · exact ⟨Or.inl rfl, rfl⟩
      next tr htr =>
        split
        · exact ⟨Or.inl rfl, rfl⟩
        next dbP hP => exact ⟨Or.inr rfl, rfl⟩
  · intro st recId njid
    unfold retryTranscriptionJobOp
    split
    · exact ⟨Or.inl rfl, rfl⟩
    next rec heq =>
      split
      · exact ⟨Or.inl rfl, rfl⟩
      next key hkey =>
        split
        · exact ⟨Or.inl rfl, rfl⟩
        next dbP hP => exact ⟨Or.inr rfl, rfl⟩

-- ============================================
-- C4: backward transitions
-- ============================================

/-- C4 counterexample: retry-debrief on a Recording whose status is complete
moves it back to processing, so an operation does move a complete Recording
back to processing. -/
theorem c4_counterexample_complete_back_to_processing :
    recStatusOf (⟨[⟨"r1", "u1", "T", "general", RecStatus.complete, some "k",
        some "audio/webm", none, none⟩], [],
      [⟨"t1", "r1", "x", none, "en"⟩], []⟩ : Db) "r1" = some RecStatus.complete ∧
    recStatusOf (retryDebriefJobOp
      ⟨⟨[⟨"r1", "u1", "T", "general", RecStatus.complete, some "k",
          some "audio/webm", none, none⟩], [],
        [⟨"t1", "r1", "x", none, "en"⟩], []⟩, [], []⟩ "r1" "j9").1.db "r1" =
      some RecStatus.processing := by
  exact ⟨rfl, rfl⟩

/-- C4 amended: the retry operations are not guarded on the failed status:
whenever the recording is found and its artifact precondition holds (a
transcript for retry-debrief, an object key for retry-transcription), the
Recording is flipped to processing regardless of its current status -
including from complete. -/
theorem c4_amended_retry_unguarded :
    (∀ (st : ApiState) (recId njid : String) (rec : RecordingRow)
        (tr : TranscriptRow),
      recordingFind st.db recId = some rec →
      transcriptFind st.db recId = some tr →
      recStatusOf (retryDebriefJobOp st recId njid).1.db recId =
        some RecStatus.processing) ∧
    (∀ (st : ApiState) (recId njid : String) (rec : RecordingRow) (key : String),
      recordingFind st.db recId = some rec →
      rec.objectKey = some key →
      recStatusOf (retryTranscriptionJobOp st recId njid).1.db recId =
        some RecStatus.processing) := by
  constructor
  · intro st recId njid rec tr hfind htr
    unfold retryDebriefJobOp
    rw [hfind]
    dsimp only
    rw [htr]
    dsimp only
    obtain ⟨dbP, hP⟩ := recordingUpdate_ok_of_exists
      (fun r => { r with status := RecStatus.processing }) (recExists_of_find hfind)
    rw [hP]
    dsimp only
    rw [recStatusOf_congr (jobCreate_pres dbP njid recId .DEBRIEF).1]
    have hrs := recStatusOf_statusSet st.db recId .processing (recExists_of_find hfind)
    rw [hP] at hrs
    simp only [Except.map] at hrs
    exact Except.ok.inj hrs
  · intro st recId njid rec key hfind hkey
    unfold retryTranscriptionJobOp
    rw [hfind]
    dsimp only
    rw [hkey]
    dsimp only
    obtain ⟨dbP, hP⟩ := recordingUpdate_ok_of_exists
      (fun r => { r with status := RecStatus.processing }) (recExists_of_find hfind)
    rw [hP]
    dsimp only
    rw [recStatusOf_congr (jobCreate_pres dbP njid recId .TRANSCRIBE).1]
    have hrs := recStatusOf_statusSet st.db recId .processing (recExists_of_find hfind)
    rw [hP] at hrs
    simp only [Except.map] at hrs
    exact Except.ok.inj hrs

/-- Witness for C4 amended: a complete recording retried on both stages. -/
theorem c4_amended_retry_unguarded_witness :
    recStatusOf (retryDebriefJobOp
      ⟨⟨[⟨"r1", "u1", "T", "general", RecStatus.complete, some "k",
          some "audio/webm", none, none⟩], [],
        [⟨"t1", "r1", "x", none, "en"⟩], []⟩, [], []⟩ "r1" "j8").1.db "r1" =
      some RecStatus.processing ∧
    recStatusOf (retryTranscriptionJobOp
      ⟨⟨[⟨"r1", "u1", "T", "general", RecStatus.complete, some "k",
          some "audio/webm", none, none⟩], [],
        [⟨"t1", "r1", "x", none, "en"⟩], []⟩, [], []⟩ "r1" "j8").1.db "r1" =
      some RecStatus.processing := by
  constructor
  · exact c4_amended_retry_unguarded.1
      ⟨⟨[⟨"r1", "u1", "T", "general", RecStatus.complete, some "k",
          some "audio/webm", none, none⟩], [],
        [⟨"t1", "r1", "x", none, "en"⟩], []⟩, [], []⟩ "r1" "j8"
      ⟨"r1", "u1", "T", "general", RecStatus.complete, some "k",
        some "audio/webm", none, none⟩
      ⟨"t1", "r1", "x", none, "en"⟩ (by rfl) (by rfl)
  · exact c4_amended_retry_unguarded.2
      ⟨⟨[⟨"r1", "u1", "T", "general", RecStatus.complete, some "k",
          some "audio/webm", none, none⟩], [],
        [⟨"t1", "r1", "x", none, "en"⟩], []⟩, [], []⟩ "r1" "j8"
      ⟨"r1", "u1", "T", "general", RecStatus.complete, some "k",
        some "audio/webm", none, none⟩
      "k" (by rfl) (by rfl)

-- ============================================
-- C8: complete-upload preconditions
-- ============================================

/-- C8: when the storage object does not exist the complete-upload handler
responds 400 and leaves the whole state unchanged (the Recording stays
pending); when the Recording is not pending it responds 400 with no
mutation either. -/
theorem c8_complete_upload_preconditions :
    (∀ (st : ApiState) (storage : List String) (userId recId : String)
        (fs : Option Nat) (njid : String) (rec : RecordingRow) (key : String),
      recordingFindByUser st.db recId userId = some rec →
      rec.status = RecStatus.pending →
      rec.objectKey = some key →
      storage.contains key = false →
      completeUploadHandler st storage userId recId fs njid = (st, 400, [])) ∧
    (∀ (st : ApiState) (storage : List String) (userId recId : String)
        (fs : Option Nat) (njid : String) (rec : RecordingRow),
      recordingFindByUser st.db recId userId = some rec →
      rec.status ≠ RecStatus.pending →
      completeUploadHandler st storage userId recId fs njid = (st, 400, [])) := by
  constructor
  · intro st storage userId recId fs njid rec key hfind hpend hkey hstore
    unfold completeUploadHandler
    rw [hfind]
    dsimp only
    rw [if_neg (by simp [hpend])]
    rw [hkey]
    dsimp only
    rw [if_pos hstore]
  · intro st storage userId recId fs njid rec hfind hpend
    unfold completeUploadHandler
    rw [hfind]
    dsimp only
    rw [if_pos hpend]

/-- Witness for C8: a pending recording whose object is missing from
storage, and an uploaded recording. -/
theorem c8_complete_upload_preconditions_witness :
    completeUploadHandler
      ⟨⟨[⟨"r1", "u1", "T", "general", RecStatus.pending, some "k",
          some "audio/webm", none, none⟩], [], [], []⟩, [], []⟩
      [] "u1" "r1" (some 100) "j1" =
      (⟨⟨[⟨"r1", "u1", "T", "general", RecStatus.pending, some "k",
          some "audio/webm", none, none⟩], [], [], []⟩, [], []⟩, 400, []) ∧
    completeUploadHandler
      ⟨⟨[⟨"r1", "u1", "T", "general", RecStatus.uploaded, some "k",
          some "audio/webm", none, none⟩], [], [], []⟩, [], []⟩
      ["k"] "u1" "r1" none "j1" =
      (⟨⟨[⟨"r1", "u1", "T", "general", RecStatus.uploaded, some "k",
          some "audio/webm", none, none⟩], [], [], []⟩, [], []⟩, 400, []) := by
  constructor
  · exact c8_complete_upload_preconditions.1
      ⟨⟨[⟨"r1", "u1", "T", "general", RecStatus.pending, some "k",
          some "audio/webm", none, none⟩], [], [], []⟩, [], []⟩
      [] "u1" "r1" (some 100) "j1"
      ⟨"r1", "u1", "T", "general", RecStatus.pending, some "k",
        some "audio/webm", none, none⟩
      "k" (by rfl) (by rfl) (by rfl) (by rfl)
  · exact c8_complete_upload_preconditions.2
      ⟨⟨[⟨"r1", "u1", "T", "general", RecStatus.uploaded, some "k",
          some "audio/webm", none, none⟩], [], [], []⟩, [], []⟩
      ["k"] "u1" "r1" none "j1"
      ⟨"r1", "u1", "T", "general", RecStatus.uploaded, some "k",
        some "audio/webm", none, none⟩
      (by rfl) (by decide)
